import Mathlib

/-!
Verification of `tools/build_defs/pkg/make_deb.py`, the Debian package
assembler.  Python strings are modelled as `List Char` and byte streams as
`List Nat`; stateless library collaborators (gzip deflate, tar member
serialisation, hashlib digest cores, `time.ctime`) are modelled as function
parameters or abstract structures, while every algorithm of the source file
itself is translated directly.
-/

namespace MakeDeb

/-- Python strings are modelled as lists of characters. -/
abbrev Str := List Char

/-- Conversion from Lean string literals into the model. -/
def str (s : String) : Str := s.data

/-- ASCII encoding of a header string: one byte per character
(`.encode('ascii')` in the source). -/
def encodeAscii (s : Str) : List Nat := s.map Char.toNat

/-- Python `str.ljust(w)`: pad on the right with spaces up to width `w`. -/
def ljust (s : Str) (w : Nat) : Str := s ++ List.replicate (w - s.length) ' '

/-- Python `str(n)` for a non-negative integer. -/
def natDecimal (n : Nat) : Str := Nat.toDigits 10 n

/-- Python 2 `oct(n)`: a leading `0` before the octal digits except for `0`
itself.  The source's `.replace('0o', '0')` is a no-op on this form. -/
def octStr (n : Nat) : Str := if n = 0 then ['0'] else '0' :: Nat.toDigits 8 n

/-- The 60-byte fixed-width AR member header assembled by `AddArFileEntry`
(`make_deb.py` lines 111-121): filename plus `/` padded to 16, decimal
timestamp, owner and group ids, octal mode, decimal size, and the two-byte
terminator `\x60\x0a`. -/
def arHeader (filename : Str) (contentLen timestamp ownerId groupId mode : Nat) : Str :=
  ljust (filename ++ ['/']) 16 ++
  ljust (natDecimal timestamp) 12 ++
  ljust (natDecimal ownerId) 6 ++
  ljust (natDecimal groupId) 6 ++
  ljust (octStr mode) 8 ++
  ljust (natDecimal contentLen) 10 ++
  [Char.ofNat 96, '\n']

/-- The entry writer `AddArFileEntry` (`make_deb.py` lines 104-130).  The declared size is the
content's byte count (`content_len = len(content)` on the string path; the
file-object path in `CreateDeb` passes the file's stat size, which equals its
content length).  The copy loop streams the content in 32 KiB chunks whose
concatenation is the content itself, and a single `\n` pad byte follows iff
the streamed byte count is odd. -/
def AddArFileEntry (filename : Str) (content : List Nat)
    (timestamp ownerId groupId mode : Nat) : List Nat :=
  encodeAscii (arHeader filename content.length timestamp ownerId groupId mode) ++
  content ++ (if content.length % 2 = 1 then [10] else [])

/-- Python `str.split(sep)` for a single-character separator: the list of the
(possibly empty) parts, always at least one part. -/
def splitChar (c : Char) : Str → List Str
  | [] => [[]]
  | x :: xs =>
    if x = c then [] :: splitChar c xs
    else
      match splitChar c xs with
      | p :: ps => (x :: p) :: ps
      | [] => [[x]]

/-- Python `sep.join(parts)`. -/
def pyJoin (sep : Str) : List Str → Str
  | [] => []
  | [x] => x
  | x :: y :: ys => x ++ sep ++ pyJoin sep (y :: ys)

/-- Python `str.replace(old, new)` for a single-character pattern, scanning
left to right without revisiting replacement text. -/
def replaceChar (c : Char) (rep : Str) : Str → Str
  | [] => []
  | x :: xs => if x = c then rep ++ replaceChar c rep xs else x :: replaceChar c rep xs

/-- Python `os.path.basename` on POSIX paths: everything after the last
slash. -/
def pyBasename (p : Str) : Str := (splitChar '/' p).getLastD []

/-- Extension selection for the data member (`make_deb.py` lines 203-214):
`ext = os.path.basename(data).split('.')[-2:]`; a single part maps to `tar`,
a last component `tgz` to `tar.gz`, a last component `tar.bzip2` to `tar.bz2`
(unreachable, since split components contain no dot), and otherwise the
dot-joined two-part suffix is kept only when it is one of `tar.bz2`,
`tar.gz`, `tar.xz`, `tar.lzma`, falling back to `tar`. -/
def debDataExt (basename : Str) : Str :=
  let parts := splitChar '.' basename
  match parts.drop (parts.length - 2) with
  | [a, b] =>
    if b = str "tgz" then str "tar.gz"
    else if b = str "tar.bzip2" then str "tar.bz2"
    else
      let e := pyJoin (str ".") [a, b]
      if e ∈ [str "tar.bz2", str "tar.gz", str "tar.xz", str "tar.lzma"] then e
      else str "tar"
  | _ => str "tar"

/-- Claim C2's description of the extension map, restated from the claim's
words for comparison with `debDataExt`: fewer than two dot-separated
components yield `tar`; a last component `tgz` yields `tar.gz`; a last
component `tar.bzip2` yields `tar.bz2`; a two-component suffix in the
recognised set is preserved; anything else yields `tar`. -/
def claimedDataExt (basename : Str) : Str :=
  let parts := splitChar '.' basename
  if parts.length < 2 then str "tar"
  else if parts.getLastD [] = str "tgz" then str "tar.gz"
  else if parts.getLastD [] = str "tar.bzip2" then str "tar.bz2"
  else
    let suffix := pyJoin (str ".") (parts.drop (parts.length - 2))
    if suffix ∈ [str "tar.bz2", str "tar.gz", str "tar.xz", str "tar.lzma"] then suffix
    else str "tar"

/-- The ASCII whitespace characters that CPython's `textwrap` machinery
replaces with spaces. -/
def isPyWs (c : Char) : Bool :=
  c == ' ' || c == '\t' || c == '\n' || c == '\x0b' || c == '\x0c' || c == '\r'

/-- Python `str.expandtabs(8)` as invoked by `textwrap`: a tab advances the
column to the next multiple of 8; newline and carriage return reset it. -/
def expandTabs : Str → Nat → Str
  | [], _ => []
  | c :: cs, col =>
    if c = '\t' then
      List.replicate (8 - col % 8) ' ' ++ expandTabs cs (col + (8 - col % 8))
    else if c = '\n' ∨ c = '\r' then c :: expandTabs cs 0
    else c :: expandTabs cs (col + 1)

/-- The helper `TextWrapper._munge_whitespace`: expand tabs, then turn every whitespace
character into a plain space. -/
def mungeWhitespace (s : Str) : Str :=
  (expandTabs s 0).map (fun c => if isPyWs c then ' ' else c)

/-- Helper for `chunkify`: accumulate the current run (reversed) of
characters of the given kind (space run or word run). -/
def chunkifyAux (kind : Bool) (acc : Str) : Str → List Str
  | [] => [acc.reverse]
  | c :: cs =>
    if (c == ' ') = kind then chunkifyAux kind (c :: acc) cs
    else acc.reverse :: chunkifyAux (c == ' ') [c] cs

/-- The splitter `TextWrapper._split` with `break_on_hyphens=False` on munged text: the
maximal runs of spaces and of non-spaces, in order. -/
def chunkify : Str → List Str
  | [] => []
  | c :: cs => chunkifyAux (c == ' ') [c] cs

/-- A chunk is whitespace iff its first character is a space; chunks are
homogeneous runs (Python tests `chunk.strip() == ''`). -/
def isWsChunk : Str → Bool
  | [] => true
  | c :: _ => c == ' '

/-- The inner loop of `_wrap_chunks`: greedily move chunks onto the current
line while the accumulated length stays within the width; return the chunks
taken and those remaining. -/
def fillLine (width : Nat) : List Str → Nat → List Str × List Str
  | [], _ => ([], [])
  | c :: rest, curLen =>
    if curLen + c.length ≤ width then
      let p := fillLine width rest (curLen + c.length)
      (c :: p.1, p.2)
    else ([], c :: rest)

/-- Drop a trailing whitespace chunk from the finished line
(`drop_whitespace=True`). -/
def dropTrailingWs (line : List Str) : List Str :=
  match line.getLast? with
  | some l => if isWsChunk l then line.dropLast else line
  | none => line

/-- Emit the finished line: `lines.append(''.join(cur_line))` happens only
when the current line is non-empty. -/
def emitLine (cur : List Str) (rem : List Str) : Option Str × List Str :=
  (if cur.isEmpty then none else some cur.flatten, rem)

/-- Close the current line after the greedy fill: when nothing fits and the
next chunk is wider than the whole line, give it a line of its own
(`_handle_long_word` with `break_long_words=False`), then drop a trailing
whitespace chunk and emit. -/
def finishLine (width : Nat) : List Str × List Str → Option Str × List Str
  | ([], r :: rs) =>
    if width < r.length then emitLine (dropTrailingWs [r]) rs
    else emitLine (dropTrailingWs []) (r :: rs)
  | (cur, rem) => emitLine (dropTrailingWs cur) rem

/-- One iteration of the `_wrap_chunks` outer loop with
`break_long_words=False`, `drop_whitespace=True`, empty indents and
`max_lines=None`: drop a leading whitespace chunk when a previous line
exists, fill greedily, then close the line.  Returns the finished line
(when non-empty) and the remaining chunks. -/
def wrapStep (width : Nat) (linesNonempty : Bool) (chunks : List Str) :
    Option Str × List Str :=
  match (match chunks with
    | c :: _ => if linesNonempty && isWsChunk c then chunks.tail else chunks
    | [] => chunks) with
  | [] => (none, [])
  | c :: rest => finishLine width (fillLine width (c :: rest) 0)

/-- The `_wrap_chunks` outer loop.  Each iteration consumes at least one
chunk, so `chunks.length` units of fuel always suffice. -/
def wrapChunksFuel (width : Nat) : Nat → Bool → List Str → List Str
  | 0, _, _ => []
  | _ + 1, _, [] => []
  | fuel + 1, linesNonempty, c :: rest =>
    match wrapStep width linesNonempty (c :: rest) with
    | (some line, rem) => line :: wrapChunksFuel width fuel true rem
    | (none, rem) => wrapChunksFuel width fuel linesNonempty rem

/-- Python `textwrap.wrap` with the flags used by the source. -/
def pyWrap (width : Nat) (text : Str) : List Str :=
  let chunks := chunkify (mungeWhitespace text)
  wrapChunksFuel width chunks.length false chunks

/-- Python `textwrap.fill(text, break_on_hyphens=False, break_long_words=False)`
at the default width of 70: wrap and join with newlines. -/
def pyFill (text : Str) : Str := pyJoin (str "\n") (pyWrap 70 text)

/-- A metadata value: either a scalar string or a list of strings. -/
inductive FieldValue where
  | s (v : Str)
  | l (v : List Str)
deriving DecidableEq

/-- The field renderer `MakeDebianControlField` (`make_deb.py` lines 133-145): join list values
with `", "`; when `wrap` is set, replace newlines by spaces and apply
`textwrap.fill` with hyphen and long-word breaking disabled; finally indent
every embedded newline with one space and terminate with a newline.  The
Python 2 `.decode('utf-8')` is the identity in this character model. -/
def MakeDebianControlField (name : Str) (value : FieldValue) (wrap : Bool) : Str :=
  let v : Str :=
    match value with
    | .s v => v
    | .l l => pyJoin (str ", ") l
  let result :=
    if wrap then pyFill (name ++ str ": " ++ pyJoin (str " ") (splitChar '\n' v))
    else name ++ str ": " ++ v
  replaceChar '\n' (str "\n ") result ++ str "\n"

/-- A row of the `DEBIAN_FIELDS` table: name, mandatory flag, wrap flag and
optional default (`make_deb.py` lines 30-49).  Defaults are installed by the
gflags layer, not by `CreateDebControl`. -/
structure FieldSpec where
  name : Str
  mandatory : Bool
  wrap : Bool
  dflt : Option FieldValue
deriving DecidableEq

/-- The `DEBIAN_FIELDS` table, row for row from the source. -/
def DEBIAN_FIELDS : List FieldSpec := [
  ⟨str "Package", true, false, none⟩,
  ⟨str "Version", true, false, none⟩,
  ⟨str "Section", false, false, some (.s (str "contrib/devel"))⟩,
  ⟨str "Priority", false, false, some (.s (str "optional"))⟩,
  ⟨str "Architecture", false, false, some (.s (str "all"))⟩,
  ⟨str "Depends", false, true, some (.l [])⟩,
  ⟨str "Recommends", false, true, some (.l [])⟩,
  ⟨str "Suggests", false, true, some (.l [])⟩,
  ⟨str "Enhances", false, true, some (.l [])⟩,
  ⟨str "Conflicts", false, true, some (.l [])⟩,
  ⟨str "Pre-Depends", false, true, some (.l [])⟩,
  ⟨str "Installed-Size", false, false, none⟩,
  ⟨str "Maintainer", true, false, none⟩,
  ⟨str "Description", true, true, none⟩,
  ⟨str "Homepage", false, false, none⟩,
  ⟨str "Built-Using", false, false, some (.s (str "Bazel"))⟩,
  ⟨str "Distribution", false, false, some (.s (str "unstable"))⟩,
  ⟨str "Urgency", false, false, some (.s (str "medium"))⟩]

/-- The kwargs key of a field (`make_deb.py` line 154): first character
lower-cased, hyphens removed from the remainder. -/
def keyOf (name : Str) : Str :=
  match name with
  | [] => []
  | c :: rest => c.toLower :: replaceChar '-' [] rest

/-- The keyword-argument mapping handed to `CreateDebControl`. -/
abbrev Kwargs := List (Str × FieldValue)

/-- Python dict lookup on the model. -/
def lookupKw (kwargs : Kwargs) (k : Str) : Option FieldValue :=
  (kwargs.find? (fun p => p.1 == k)).map (fun p => p.2)

/-- Python truthiness of a field value. -/
def truthy : FieldValue → Bool
  | .s v => !v.isEmpty
  | .l v => !v.isEmpty

/-- Truthiness of `key in kwargs and kwargs[key]`. -/
def truthyOpt : Option FieldValue → Bool
  | some v => truthy v
  | none => false

/-- The exception raised by the modelled code: a missing-key dict access
(`kwargs[key]` in `CreateDebControl`).  The source defines no other
exception of its own — in particular no ValidationError. -/
inductive PyErr where
  | keyError (key : Str)
deriving DecidableEq

/-- The control-file rendering loop of `CreateDebControl` (`make_deb.py`
lines 151-156): for each schema field in order, when the field is mandatory
or its key maps to a truthy value, append the rendered field; the value
access `kwargs[key]` raises `KeyError` when the key is absent. -/
def controlFold (kwargs : Kwargs) : List FieldSpec → Str → Except PyErr Str
  | [], acc => .ok acc
  | f :: rest, acc =>
    if f.mandatory || truthyOpt (lookupKw kwargs (keyOf f.name)) then
      match lookupKw kwargs (keyOf f.name) with
      | some v => controlFold kwargs rest (acc ++ MakeDebianControlField f.name v f.wrap)
      | none => .error (.keyError (keyOf f.name))
    else controlFold kwargs rest acc

/-- The control file rendered by `CreateDebControl` before archiving. -/
def CreateDebControlFile (kwargs : Kwargs) : Except PyErr Str :=
  controlFold kwargs DEBIAN_FIELDS []

/-- UTF-8 encoding of one character. -/
def charUtf8 (c : Char) : List Nat :=
  let n := c.toNat
  if n < 128 then [n]
  else if n < 2048 then [192 + n / 64, 128 + n % 64]
  else if n < 65536 then [224 + n / 4096, 128 + n / 64 % 64, 128 + n % 64]
  else [240 + n / 262144, 128 + n / 4096 % 64, 128 + n / 64 % 64, 128 + n % 64]

/-- Python `str.encode('utf-8')`. -/
def encodeUtf8 (s : Str) : List Nat := (s.map charUtf8).flatten

/-- One member of the control tarball: `tarfile.TarInfo` name, declared
size, mode, and the content bytes handed to `addfile`. -/
structure TarEntry where
  name : Str
  size : Nat
  mode : Nat
  content : List Nat
deriving DecidableEq

/-- The tar entries added by `CreateDebControl` (`make_deb.py` lines
160-170): the rendered control file under the name `control` with the
`TarInfo` default mode `0o644` and its size measured on the UTF-8 encoding,
followed by one entry per extra file with the supplied mode (an extra
file's declared size is the Python 2 byte-string length, which equals its
character count in this model). -/
def controlTarEntries (controlfile : Str) (extrafiles : List (Str × Str × Nat)) :
    List TarEntry :=
  ⟨str "control", (encodeUtf8 controlfile).length, 0o644, encodeUtf8 controlfile⟩ ::
    extrafiles.map (fun e => ⟨e.1, e.2.1.length, e.2.2, encodeUtf8 e.2.1⟩)

/-- Little-endian 4-byte encoding. -/
def le4 (n : Nat) : List Nat :=
  [n % 256, n / 256 % 256, n / 65536 % 256, n / 16777216 % 256]

/-- The gzip stream written by `gzip.GzipFile('control.tar.gz', 'w',
fileobj, mtime=0)`: magic bytes, deflate method, the FNAME flag, the 4-byte
little-endian modification time, extra-flags and OS bytes, the embedded
file name `control.tar` with NUL terminator, then the deflate body with its
CRC/size footer (abstracted into the `compress` parameter).  The library
falls back to the wall clock only when no `mtime` is supplied, so the clock
is threaded through as `clock`. -/
def gzipWrap (compress : List Nat → List Nat) (clock : Nat) (mtime : Option Nat)
    (payload : List Nat) : List Nat :=
  [31, 139, 8, 8] ++ le4 (mtime.getD clock % 4294967296) ++ [2, 255] ++
    encodeAscii (str "control.tar") ++ [0] ++ compress payload

/-- The control-tarball builder `CreateDebControl` (`make_deb.py` lines 148-173): render the control
file, archive it together with the extra files, and gzip-wrap the tar bytes
with `mtime=0`.  Tar member serialisation (`tarSer`) and deflate
(`compress`) are external library code, passed as parameters. -/
def CreateDebControl (tarSer : List TarEntry → List Nat)
    (compress : List Nat → List Nat) (clock : Nat)
    (extrafiles : List (Str × Str × Nat)) (kwargs : Kwargs) :
    Except PyErr (List Nat) := do
  let controlfile ← CreateDebControlFile kwargs
  .ok (gzipWrap compress clock (some 0) (tarSer (controlTarEntries controlfile extrafiles)))

/-- One `if <script>: extrafiles[<name>] = (<script>, 0o755)` statement of
`CreateDeb` (`make_deb.py` lines 186-193): a script that is `None` or empty
is falsy and contributes nothing. -/
def scriptEntry (name : Str) (script : Option Str) : List (Str × Str × Nat) :=
  match script with
  | some s => if s.isEmpty then [] else [(name, s, 0o755)]
  | none => []

/-- The conffiles statement of `CreateDeb` (`make_deb.py` lines 194-195): a
supplied non-empty path list is newline-joined with a trailing newline and
stored under mode `0o644`. -/
def conffilesEntry (conffiles : Option (List Str)) : List (Str × Str × Nat) :=
  match conffiles with
  | some l => if l.isEmpty then []
      else [(str "conffiles", pyJoin (str "\n") l ++ str "\n", 0o644)]
  | none => []

/-- The extra-files mapping assembled by `CreateDeb` (`make_deb.py` lines
185-195), in insertion order. -/
def mkExtraFiles (preinst postinst prerm postrm : Option Str)
    (conffiles : Option (List Str)) : List (Str × Str × Nat) :=
  scriptEntry (str "preinst") preinst ++
  scriptEntry (str "postinst") postinst ++
  scriptEntry (str "prerm") prerm ++
  scriptEntry (str "postrm") postrm ++
  conffilesEntry conffiles

/-- The three AR members written by `CreateDeb` (`make_deb.py` lines
199-217): `debian-binary` with content `2.0\n`, the control tarball, and
the data payload under the extension-derived member name. -/
def CreateDebMembers (tarSer : List TarEntry → List Nat)
    (compress : List Nat → List Nat) (clock : Nat)
    (dataName : Str) (dataContent : List Nat)
    (preinst postinst prerm postrm : Option Str) (conffiles : Option (List Str))
    (kwargs : Kwargs) : Except PyErr (List (Str × List Nat)) := do
  let control ← CreateDebControl tarSer compress clock
    (mkExtraFiles preinst postinst prerm postrm conffiles) kwargs
  .ok [(str "debian-binary", encodeAscii (str "2.0\n")),
    (str "control.tar.gz", control),
    (str "data." ++ debDataExt (pyBasename dataName), dataContent)]

/-- The assembler `CreateDeb`: the bytes written to the output file — the AR magic
followed by the three members, each with the default numeric header fields.
The control tarball (and hence any `KeyError` from the metadata loop) is
produced before the output file is opened, so an error result models "no
output file created, no bytes written". -/
def CreateDeb (tarSer : List TarEntry → List Nat)
    (compress : List Nat → List Nat) (clock : Nat)
    (dataName : Str) (dataContent : List Nat)
    (preinst postinst prerm postrm : Option Str) (conffiles : Option (List Str))
    (kwargs : Kwargs) : Except PyErr (List Nat) := do
  let members ← CreateDebMembers tarSer compress clock dataName dataContent
    preinst postinst prerm postrm conffiles kwargs
  .ok (encodeAscii (str "!<arch>\n") ++
    (members.map (fun m => AddArFileEntry m.1 m.2 0 0 0 0o644)).flatten)

/-- An abstract incremental hash algorithm (a `hashlib` constructor), with
the properties that make incremental hashing meaningful: updating with a
concatenation equals consecutive updates, the empty update is a no-op, and
digests consist of lower-case hexadecimal characters. -/
structure HashAlg where
  State : Type
  init : State
  update : State → List Nat → State
  hexdigest : State → Str
  update_nil : ∀ s, update s [] = s
  update_append : ∀ s a b, update s (a ++ b) = update (update s a) b
  hex_lower : ∀ s c, c ∈ hexdigest s → c ∈ str "0123456789abcdef"

/-- The read loop of `GetChecksumsFromFile`: successive 1 MiB reads until
the file is exhausted (fuelled; every iteration consumes at least one byte,
so `content.length` units suffice). -/
def readChunksFuel : Nat → List Nat → List (List Nat)
  | 0, _ => []
  | _ + 1, [] => []
  | fuel + 1, l => l.take 1048576 :: readChunksFuel fuel (l.drop 1048576)

/-- The sequence of 1 MiB reads performed on a file's content. -/
def readChunks (content : List Nat) : List (List Nat) :=
  readChunksFuel content.length content

/-- The checksum pass `GetChecksumsFromFile` (`make_deb.py` lines 220-243): stream the file
once in 1 MiB chunks, feeding every requested algorithm's running state
with each chunk, then return the hex digests. -/
def GetChecksumsFromFile (content : List Nat) (hashFns : List (Str × HashAlg)) :
    List (Str × Str) :=
  let final := (readChunks content).foldl
    (fun sts buf => sts.map (fun s => (s.1, ⟨s.2.1, s.2.1.update s.2.2 buf⟩)))
    (hashFns.map (fun p => (p.1, (⟨p.2, p.2.init⟩ : Σ a : HashAlg, a.State))))
  final.map (fun s => (s.1, s.2.1.hexdigest s.2.2))

/-- The changes-file builder `CreateChanges` (`make_deb.py` lines 246-285): the text written to the
changes file.  `time.ctime(timestamp)` is wall-clock and locale dependent
library formatting and is passed in as `ctimeStr`; the digests come from
`GetChecksumsFromFile` over the deb file's bytes, the size from
`os.path.getsize` (the byte count), the name from `os.path.basename`. -/
def CreateChanges (md5A sha1A sha256A : HashAlg) (debPath : Str)
    (debContent : List Nat)
    (ctimeStr architecture shortDescription maintainer package version
      sectionStr priority distribution urgency : Str) : Str :=
  let checksums := GetChecksumsFromFile debContent
    [(str "md5", md5A), (str "sha1", sha1A), (str "sha256", sha256A)]
  let md5d := ((checksums.find? (fun p => p.1 == str "md5")).map (fun p => p.2)).getD []
  let sha1d := ((checksums.find? (fun p => p.1 == str "sha1")).map (fun p => p.2)).getD []
  let sha256d := ((checksums.find? (fun p => p.1 == str "sha256")).map (fun p => p.2)).getD []
  let debsize := natDecimal debContent.length
  let debBasename := pyBasename debPath
  (([(str "Format", str "1.8"),
    (str "Date", ctimeStr),
    (str "Source", package),
    (str "Binary", package),
    (str "Architecture", architecture),
    (str "Version", version),
    (str "Distribution", distribution),
    (str "Urgency", urgency),
    (str "Maintainer", maintainer),
    (str "Changed-By", maintainer),
    (str "Description", str "\n" ++ package ++ str " - " ++ shortDescription),
    (str "Changes", str "\n" ++ package ++ str " (" ++ version ++ str ") " ++
      distribution ++ str "; urgency=" ++ urgency ++
      str "\nChanges are tracked in revision control."),
    (str "Files", str "\n" ++ pyJoin (str " ")
      [md5d, debsize, sectionStr, priority, debBasename]),
    (str "Checksums-Sha1", str "\n" ++ pyJoin (str " ") [sha1d, debsize, debBasename]),
    (str "Checksums-Sha256", str "\n" ++ pyJoin (str " ") [sha256d, debsize, debBasename])] :
      List (Str × Str)).map
    (fun x => MakeDebianControlField x.1 (.s x.2) false)).flatten

/-- A list of lines, each terminated by one newline. -/
def joinLines : List Str → Str
  | [] => []
  | l :: ls => l ++ '\n' :: joinLines ls

/-- Every newline in the string is immediately followed by a space. -/
def nlSpaced : Str → Bool
  | [] => true
  | x :: rest =>
    if x = '\n' then
      match rest with
      | [] => false
      | y :: _ => y == ' ' && nlSpaced rest
    else nlSpaced rest

/-- Claim C6 as stated, instantiated at one descriptor and value: the output
has the shape `<Name>: <value>` terminated by a single newline, a list value
renders as its `", "`-join, and every embedded newline (other than the final
terminator) is followed by exactly one leading space on the continuation
line. -/
def claimC6At (name : Str) (value : FieldValue) (wrap : Bool) : Prop :=
  ((name ++ str ": ").isPrefixOf (MakeDebianControlField name value wrap).dropLast = true ∧
    (MakeDebianControlField name value wrap).getLast? = some '\n' ∧
    (MakeDebianControlField name value wrap).dropLast.getLast? ≠ some '\n') ∧
  (match value with
    | .l l => MakeDebianControlField name value wrap
        = MakeDebianControlField name (.s (pyJoin (str ", ") l)) wrap
    | .s _ => True) ∧
  (∀ i < (MakeDebianControlField name value wrap).length - 1,
    (MakeDebianControlField name value wrap)[i]? = some '\n' →
      (MakeDebianControlField name value wrap)[i + 1]? = some ' ' ∧
      (MakeDebianControlField name value wrap)[i + 2]? ≠ some ' ')

def pickField (kwargs : Kwargs) (f : FieldSpec) : Option Str :=
  match lookupKw kwargs (keyOf f.name) with
  | some v => if f.mandatory || truthy v then some (MakeDebianControlField f.name v f.wrap)
      else none
  | none => none

/-- A degenerate but lawful hash algorithm used to instantiate the checksum
theorems concretely: the state is the byte sum and the digest a constant
lower-case hex character. -/
def sumAlg : HashAlg where
  State := Nat
  init := 0
  update := fun s l => l.foldl (fun a b => a + b) s
  hexdigest := fun _ => ['a']
  update_nil := fun _ => rfl
  update_append := fun s a b => by simp [List.foldl_append]
  hex_lower := fun s c hc => by
    simp at hc
    subst hc
    decide

/-- The line layout of the changes document, stated from Claim C8: the
fifteen fields in order, with the three checksum-bearing fields carrying
their content — digest, size, (section and priority for `Files`), and deb
basename — on a continuation line. -/
def changesLines (md5d sha1d sha256d debsize debBasename ctimeStr architecture
    shortDescription maintainer package version sectionStr priority distribution
    urgency : Str) : List Str :=
  [str "Format: 1.8",
   str "Date: " ++ ctimeStr,
   str "Source: " ++ package,
   str "Binary: " ++ package,
   str "Architecture: " ++ architecture,
   str "Version: " ++ version,
   str "Distribution: " ++ distribution,
   str "Urgency: " ++ urgency,
   str "Maintainer: " ++ maintainer,
   str "Changed-By: " ++ maintainer,
   str "Description: ",
   ' ' :: (package ++ (str " - " ++ shortDescription)),
   str "Changes: ",
   ' ' :: (package ++ (str " (" ++ (version ++ (str ") " ++
     (distribution ++ (str "; urgency=" ++ urgency)))))),
   str " Changes are tracked in revision control.",
   str "Files: ",
   ' ' :: pyJoin (str " ") [md5d, debsize, sectionStr, priority, debBasename],
   str "Checksums-Sha1: ",
   ' ' :: pyJoin (str " ") [sha1d, debsize, debBasename],
   str "Checksums-Sha256: ",
   ' ' :: pyJoin (str " ") [sha256d, debsize, debBasename]]

lemma length_ljust {s : Str} {w : Nat} (h : s.length ≤ w) : (ljust s w).length = w := by
  simp [ljust]
  omega

lemma length_arHeader {filename : Str} {contentLen timestamp ownerId groupId mode : Nat}
    (hname : filename.length ≤ 15)
    (ht : (natDecimal timestamp).length ≤ 12)
    (ho : (natDecimal ownerId).length ≤ 6)
    (hg : (natDecimal groupId).length ≤ 6)
    (hm : (octStr mode).length ≤ 8)
    (hs : (natDecimal contentLen).length ≤ 10) :
    (arHeader filename contentLen timestamp ownerId groupId mode).length = 60 := by
  have h1 : (filename ++ ['/']).length ≤ 16 := by simp; omega
  simp [arHeader, length_ljust h1, length_ljust ht, length_ljust ho,
    length_ljust hg, length_ljust hm, length_ljust hs]

lemma arHeader_size_field {filename : Str} {contentLen timestamp ownerId groupId mode : Nat}
    (hname : filename.length ≤ 15)
    (ht : (natDecimal timestamp).length ≤ 12)
    (ho : (natDecimal ownerId).length ≤ 6)
    (hg : (natDecimal groupId).length ≤ 6)
    (hm : (octStr mode).length ≤ 8)
    (hs : (natDecimal contentLen).length ≤ 10) :
    ((arHeader filename contentLen timestamp ownerId groupId mode).drop 48).take 10
      = ljust (natDecimal contentLen) 10 := by
  have h1 : (filename ++ ['/']).length ≤ 16 := by simp; omega
  unfold arHeader
  simp only [List.append_assoc]
  rw [show (48 : Nat) = (ljust (filename ++ ['/']) 16).length + 32 by rw [length_ljust h1],
    List.drop_append,
    show (32 : Nat) = (ljust (natDecimal timestamp) 12).length + 20 by rw [length_ljust ht],
    List.drop_append,
    show (20 : Nat) = (ljust (natDecimal ownerId) 6).length + 14 by rw [length_ljust ho],
    List.drop_append,
    show (14 : Nat) = (ljust (natDecimal groupId) 6).length + 8 by rw [length_ljust hg],
    List.drop_append,
    List.drop_left' (length_ljust hm),
    List.take_left' (length_ljust hs)]

/-- Claim C4: under the stated width bounds, every AR member written by
`AddArFileEntry` has a header of exactly 60 bytes, the header's declared size
field is the (space-padded) decimal byte count of the actual payload, the
content is followed by exactly one `\n` pad byte iff the payload byte count
is odd, and the total member size (header + content + padding) is even. -/
theorem addArFileEntry_layout (filename : Str) (content : List Nat)
    (timestamp ownerId groupId mode : Nat)
    (hname : filename.length ≤ 15)
    (ht : (natDecimal timestamp).length ≤ 12)
    (ho : (natDecimal ownerId).length ≤ 6)
    (hg : (natDecimal groupId).length ≤ 6)
    (hm : (octStr mode).length ≤ 8)
    (hs : (natDecimal content.length).length ≤ 10) :
    (arHeader filename content.length timestamp ownerId groupId mode).length = 60 ∧
    ((arHeader filename content.length timestamp ownerId groupId mode).drop 48).take 10
      = ljust (natDecimal content.length) 10 ∧
    (AddArFileEntry filename content timestamp ownerId groupId mode).drop
        (60 + content.length) = (if content.length % 2 = 1 then [10] else []) ∧
    (AddArFileEntry filename content timestamp ownerId groupId mode).length % 2 = 0 := by
  have hlen := length_arHeader hname ht ho hg hm hs
  have henc : (encodeAscii
      (arHeader filename content.length timestamp ownerId groupId mode)).length = 60 := by
    simp [encodeAscii, hlen]
  refine ⟨hlen, arHeader_size_field hname ht ho hg hm hs, ?_, ?_⟩
  · unfold AddArFileEntry
    rw [List.append_assoc,
      show 60 + content.length
          = (encodeAscii (arHeader filename content.length timestamp ownerId groupId
              mode)).length + content.length by rw [henc],
      List.drop_append, List.drop_left]
  · unfold AddArFileEntry
    simp only [List.length_append, henc]
    rcases Nat.even_or_odd content.length with he | ho2
    · have : content.length % 2 = 0 := Nat.even_iff.mp he
      simp [this]
      omega
    · have : content.length % 2 = 1 := Nat.odd_iff.mp ho2
      simp [this]
      omega

/-- Concrete check of Claim C4's theorem: the `debian-binary` member (content
`2.0\n`, i.e. four bytes) at the source's default numeric fields. -/
theorem addArFileEntry_layout_witness :
    ((str "debian-binary").length ≤ 15 ∧
      (natDecimal 0).length ≤ 12 ∧ (natDecimal 0).length ≤ 6 ∧
      (octStr 420).length ≤ 8 ∧ (natDecimal 4).length ≤ 10) ∧
    ((arHeader (str "debian-binary") ([50, 46, 48, 10] : List Nat).length 0 0 0 420).length
        = 60 ∧
      ((arHeader (str "debian-binary") ([50, 46, 48, 10] : List Nat).length 0 0 0
          420).drop 48).take 10 = ljust (natDecimal ([50, 46, 48, 10] : List Nat).length) 10 ∧
      (AddArFileEntry (str "debian-binary") [50, 46, 48, 10] 0 0 0 420).drop
          (60 + ([50, 46, 48, 10] : List Nat).length)
        = (if ([50, 46, 48, 10] : List Nat).length % 2 = 1 then [10] else []) ∧
      (AddArFileEntry (str "debian-binary") [50, 46, 48, 10] 0 0 0 420).length % 2 = 0) :=
  ⟨by decide, addArFileEntry_layout (str "debian-binary") [50, 46, 48, 10] 0 0 0 420
    (by decide) (by decide) (by decide) (by decide) (by decide) (by decide)⟩

lemma drop_length_sub_two (l : List Str) :
    ∀ a b : Str, ∃ u v, (a :: b :: l).drop ((a :: b :: l).length - 2) = [u, v] ∧
      (a :: b :: l).getLastD [] = v := by
  induction l with
  | nil => intro a b; exact ⟨a, b, by simp, by simp⟩
  | cons c l ih =>
    intro a b
    obtain ⟨u, v, h1, h2⟩ := ih b c
    refine ⟨u, v, ?_, ?_⟩
    · have hl : (a :: b :: c :: l).length - 2 = (b :: c :: l).length - 2 + 1 := by
        simp
      rw [hl, List.drop_succ_cons, h1]
    · simpa using h2

/-- The source's extension computation agrees everywhere with the claim's
case analysis. -/
lemma debDataExt_eq_claimedDataExt (basename : Str) :
    debDataExt basename = claimedDataExt basename := by
  unfold debDataExt claimedDataExt
  rcases h : splitChar '.' basename with _ | ⟨x, _ | ⟨y, rest⟩⟩
  · simp
  · simp
  · obtain ⟨u, v, h1, h2⟩ := drop_length_sub_two rest x y
    dsimp only
    rw [h1, h2]
    have hlt : ¬ ((x :: y :: rest).length < 2) := by simp
    simp only [hlt, if_false]

lemma replaceChar_append (c : Char) (rep : Str) (a b : Str) :
    replaceChar c rep (a ++ b) = replaceChar c rep a ++ replaceChar c rep b := by
  induction a with
  | nil => simp [replaceChar]
  | cons x xs ih =>
    by_cases h : x = c <;> simp [replaceChar, h, ih]

lemma replaceChar_of_not_mem {c : Char} {s : Str} (rep : Str) (h : c ∉ s) :
    replaceChar c rep s = s := by
  induction s with
  | nil => rfl
  | cons x xs ih =>
    rw [List.mem_cons, not_or] at h
    have hx : ¬ x = c := fun hh => h.1 hh.symm
    simp [replaceChar, hx, ih h.2]

lemma joinLines_append (a b : List Str) :
    joinLines (a ++ b) = joinLines a ++ joinLines b := by
  induction a with
  | nil => rfl
  | cons x xs ih => simp [joinLines, ih]

lemma splitChar_of_not_mem (c : Char) {a : Str} (h : c ∉ a) :
    splitChar c a = [a] := by
  induction a with
  | nil => rfl
  | cons x xs ih =>
    rw [List.mem_cons, not_or] at h
    have hx : ¬ x = c := fun hh => h.1 hh.symm
    simp [splitChar, hx, ih h.2]

lemma splitChar_append_cons (c : Char) {a : Str} (b : Str) (h : c ∉ a) :
    splitChar c (a ++ c :: b) = a :: splitChar c b := by
  induction a with
  | nil => simp [splitChar]
  | cons x xs ih =>
    rw [List.mem_cons, not_or] at h
    have hx : ¬ x = c := fun hh => h.1 hh.symm
    simp [splitChar, hx, ih h.2]

lemma splitChar_joinLines {ls : List Str} (h : ∀ l ∈ ls, '\n' ∉ l) :
    splitChar '\n' (joinLines ls) = ls ++ [[]] := by
  induction ls with
  | nil => rfl
  | cons x xs ih =>
    rw [joinLines, splitChar_append_cons '\n' _ (h x (by simp)),
      ih (fun l hl => h l (by simp [hl]))]
    rfl

lemma nlSpaced_replaceChar (s : Str) :
    nlSpaced (replaceChar '\n' (str "\n ") s) = true := by
  induction s with
  | nil => rfl
  | cons x xs ih =>
    by_cases hx : x = '\n'
    · subst hx
      exact ih
    · simp [replaceChar, hx, nlSpaced, ih]

lemma expandTabs_cons_no_tab {x : Char} (xs : Str) (col : Nat) (hx : x ≠ '\t') :
    ∃ col2, expandTabs (x :: xs) col = x :: expandTabs xs col2 := by
  by_cases hnl : x = '\n' ∨ x = '\r'
  · exact ⟨0, by simp [expandTabs, hx, hnl]⟩
  · exact ⟨col + 1, by simp [expandTabs, hx, hnl]⟩

lemma expandTabs_append_no_tab {a : Str} (b : Str) (col : Nat)
    (h : ∀ c ∈ a, c ≠ '\t') :
    ∃ col2, expandTabs (a ++ b) col = a ++ expandTabs b col2 := by
  induction a generalizing col with
  | nil => exact ⟨col, rfl⟩
  | cons x xs ih =>
    obtain ⟨c1, h1⟩ := expandTabs_cons_no_tab (xs ++ b) col (h x (by simp))
    obtain ⟨c2, h2⟩ := ih c1 (fun c hc => h c (by simp [hc]))
    exact ⟨c2, by simp [h1, h2]⟩

lemma map_munge_id {name : Str} (h : ∀ c ∈ name, isPyWs c = false) :
    name.map (fun c => if isPyWs c then ' ' else c) = name := by
  induction name with
  | nil => rfl
  | cons x xs ih =>
    simp [h x (by simp), ih (fun c hc => h c (by simp [hc]))]

lemma mungeWhitespace_shape {name : Str} (j : Str)
    (h : ∀ c ∈ name, isPyWs c = false) :
    ∃ m : Str, mungeWhitespace (name ++ str ": " ++ j) = (name ++ [':']) ++ ' ' :: m := by
  have hnt : ∀ c ∈ name ++ [':'], c ≠ '\t' := by
    intro c hc
    rcases List.mem_append.mp hc with h1 | h1
    · intro hh
      subst hh
      simpa [isPyWs] using h _ h1
    · simp at h1
      subst h1
      decide
  have hassoc : name ++ str ": " ++ j = (name ++ [':']) ++ (' ' :: j) := by
    rw [show (str ": " : Str) = [':', ' '] from rfl]
    simp
  obtain ⟨c1, h1⟩ := expandTabs_append_no_tab (' ' :: j) 0 hnt
  obtain ⟨c2, h2⟩ := @expandTabs_cons_no_tab ' ' j c1 (by decide)
  refine ⟨(expandTabs j c2).map (fun c => if isPyWs c then ' ' else c), ?_⟩
  unfold mungeWhitespace
  rw [hassoc, h1, h2]
  simp only [List.map_append, List.map_cons]
  rw [map_munge_id h]
  rw [show (if isPyWs ':' then ' ' else ':') = ':' from by decide]
  simp

lemma chunkifyAux_word {xs : Str} (acc : Str) (t : Str)
    (h : ∀ c ∈ xs, (c == ' ') = false) :
    chunkifyAux false acc (xs ++ ' ' :: t)
      = (acc.reverse ++ xs) :: chunkifyAux true [' '] t := by
  induction xs generalizing acc with
  | nil => simp [chunkifyAux]
  | cons y ys ih =>
    have hy : (y == ' ') = false := h y (by simp)
    simp only [List.cons_append, chunkifyAux, hy, if_pos, List.append_eq]
    rw [ih (y :: acc) (fun c hc => h c (by simp [hc]))]
    simp

lemma chunkify_word {x : Char} {xs : Str} (t : Str)
    (h : ∀ c ∈ x :: xs, (c == ' ') = false) :
    chunkify ((x :: xs) ++ ' ' :: t) = (x :: xs) :: chunkifyAux true [' '] t := by
  have hx := h x (by simp)
  simp only [List.cons_append, chunkify, hx, List.append_eq]
  rw [chunkifyAux_word [x] t (fun c hc => h c (by simp [hc]))]
  simp

lemma dropTrailingWs_word_head {c0 : Str} (l : List Str) (hc0 : isWsChunk c0 = false) :
    ∃ l2, dropTrailingWs (c0 :: l) = c0 :: l2 := by
  unfold dropTrailingWs
  cases l with
  | nil =>
    refine ⟨[], ?_⟩
    simp [hc0]
  | cons a as =>
    cases hl : (c0 :: a :: as).getLast? with
    | none => simp at hl
    | some last =>
      by_cases hw : isWsChunk last
      · exact ⟨(a :: as).dropLast, by simp [hl, hw]⟩
      · exact ⟨a :: as, by simp [hl, hw]⟩

lemma wrapStep_word_head {c0 : Str} (rest : List Str) (hc0 : isWsChunk c0 = false) :
    ∃ t rem, wrapStep 70 false (c0 :: rest) = (some (c0 ++ t), rem) := by
  rw [show wrapStep 70 false (c0 :: rest) = finishLine 70 (fillLine 70 (c0 :: rest) 0)
    from rfl]
  by_cases h70 : c0.length ≤ 70
  · have hfill : fillLine 70 (c0 :: rest) 0
        = (c0 :: (fillLine 70 rest c0.length).1, (fillLine 70 rest c0.length).2) := by
      rw [fillLine]
      simp [h70]
    obtain ⟨l2, hdrop⟩ := dropTrailingWs_word_head (fillLine 70 rest c0.length).1 hc0
    refine ⟨l2.flatten, (fillLine 70 rest c0.length).2, ?_⟩
    rw [hfill]
    rw [show finishLine 70 (c0 :: (fillLine 70 rest c0.length).1,
        (fillLine 70 rest c0.length).2)
      = emitLine (dropTrailingWs (c0 :: (fillLine 70 rest c0.length).1))
        (fillLine 70 rest c0.length).2 from rfl]
    rw [hdrop]
    simp [emitLine]
  · have hfill : fillLine 70 (c0 :: rest) 0 = ([], c0 :: rest) := by
      rw [fillLine]
      simp
      omega
    have hlt : 70 < c0.length := by omega
    refine ⟨[], rest, ?_⟩
    rw [hfill]
    rw [show finishLine 70 ([], c0 :: rest)
      = if 70 < c0.length then emitLine (dropTrailingWs [c0]) rest
        else emitLine (dropTrailingWs []) (c0 :: rest) from rfl]
    rw [if_pos hlt]
    rw [show dropTrailingWs [c0] = if isWsChunk c0 then [] else [c0] from by
      simp [dropTrailingWs]]
    rw [hc0]
    simp [emitLine]

lemma wrapFuel_word_head {c0 : Str} (rest : List Str) (fuel : Nat)
    (hc0 : isWsChunk c0 = false) :
    ∃ t ls, wrapChunksFuel 70 (fuel + 1) false (c0 :: rest) = (c0 ++ t) :: ls := by
  obtain ⟨t, rem, hstep⟩ := wrapStep_word_head rest hc0
  exact ⟨t, wrapChunksFuel 70 fuel true rem, by simp [wrapChunksFuel, hstep]⟩

lemma pyFill_starts_with_word {name : Str} (j : Str)
    (hname : ∀ c ∈ name, isPyWs c = false) :
    ∃ u, pyFill (name ++ str ": " ++ j) = (name ++ [':']) ++ u := by
  obtain ⟨m, hm⟩ := mungeWhitespace_shape j hname
  have hword : ∀ c ∈ name ++ [':'], (c == ' ') = false := by
    intro c hc
    rcases List.mem_append.mp hc with h1 | h1
    · by_cases hcs : c = ' '
      · subst hcs
        have := hname ' ' h1
        rw [show isPyWs ' ' = true from rfl] at this
        exact absurd this (by simp)
      · simp [hcs]
    · simp at h1
      subst h1
      decide
  cases hcons : name ++ [':'] with
  | nil => exact absurd hcons (by simp)
  | cons x xs =>
    rw [hcons] at hm
    have hchunks : chunkify (mungeWhitespace (name ++ str ": " ++ j))
        = (x :: xs) :: chunkifyAux true [' '] m := by
      rw [hm]
      exact chunkify_word m (hcons ▸ hword)
    have hc0 : isWsChunk (x :: xs) = false := by
      simp only [isWsChunk]
      exact (hcons ▸ hword) x (by simp)
    have hpw : pyWrap 70 (name ++ str ": " ++ j)
        = wrapChunksFuel 70 ((chunkifyAux true [' '] m).length + 1) false
            ((x :: xs) :: chunkifyAux true [' '] m) := by
      unfold pyWrap
      rw [hchunks]
      simp
    obtain ⟨t, ls, hw⟩ := wrapFuel_word_head (chunkifyAux true [' '] m)
      (chunkifyAux true [' '] m).length hc0
    unfold pyFill
    rw [hpw, hw]
    cases ls with
    | nil =>
      refine ⟨t, ?_⟩
      rw [pyJoin]
    | cons y ys =>
      refine ⟨t ++ str "\n" ++ pyJoin (str "\n") (y :: ys), ?_⟩
      rw [pyJoin]
      simp [List.append_assoc]

lemma newline_not_mem_of_ws_free {name : Str} (h : ∀ c ∈ name, isPyWs c = false) :
    '\n' ∉ name ++ [':'] := by
  intro hmem
  rcases List.mem_append.mp hmem with h1 | h1
  · have := h _ h1
    rw [isPyWs] at this
    simp at this
  · simp at h1

/-- Claim C6 fails on the code at two explicit inputs: a non-wrapped value
`a\n b` renders with two leading spaces on the continuation line (the code
inserts one space after the newline in addition to the space already in the
value), and a wrapped 71-character single word renders as `Description:`
followed by the word on a continuation line, not as `Description: <value>`. -/
theorem makeDebianControlField_claim_counterexample :
    ¬ claimC6At (str "X") (.s (str "a\n b")) false ∧
    ¬ claimC6At (str "Description") (.s (List.replicate 71 'a')) true := by
  constructor
  · intro hcl
    exact absurd (by decide :
      ¬ (∀ i < (MakeDebianControlField (str "X") (.s (str "a\n b")) false).length - 1,
        (MakeDebianControlField (str "X") (.s (str "a\n b")) false)[i]? = some '\n' →
          (MakeDebianControlField (str "X") (.s (str "a\n b")) false)[i + 1]? = some ' ' ∧
          (MakeDebianControlField (str "X") (.s (str "a\n b")) false)[i + 2]? ≠ some ' '))
      (fun hn => hn hcl.2.2)
  · intro hcl
    exact absurd hcl.1.1 (by decide)

lemma mdcf_list_eq_scalar (name : Str) (l : List Str) (wrap : Bool) :
    MakeDebianControlField name (.l l) wrap
      = MakeDebianControlField name (.s (pyJoin (str ", ") l)) wrap := rfl

lemma mdcf_shape (name : Str) (v : Str) (wrap : Bool) :
    MakeDebianControlField name (.s v) wrap
      = replaceChar '\n' (str "\n ")
          (if wrap then pyFill (name ++ str ": " ++ pyJoin (str " ") (splitChar '\n' v))
            else name ++ str ": " ++ v) ++ str "\n" := by
  cases wrap <;> rfl

lemma newline_not_mem_name {name : Str} (hname : ∀ c ∈ name, isPyWs c = false) :
    '\n' ∉ name := by
  intro hmem
  have := hname '\n' hmem
  rw [show isPyWs '\n' = true from rfl] at this
  exact absurd this (by simp)

lemma mdcf_scalar_starts {name : Str} (v : Str) (wrap : Bool)
    (hname : ∀ c ∈ name, isPyWs c = false) :
    ∃ t, MakeDebianControlField name (.s v) wrap = (name ++ [':']) ++ t := by
  have hnl := newline_not_mem_name hname
  rw [mdcf_shape]
  cases wrap with
  | true =>
    obtain ⟨u, hu⟩ := pyFill_starts_with_word (pyJoin (str " ") (splitChar '\n' v)) hname
    rw [if_pos rfl, hu, replaceChar_append,
      replaceChar_of_not_mem _ (newline_not_mem_of_ws_free hname)]
    exact ⟨replaceChar '\n' (str "\n ") u ++ str "\n", by simp⟩
  | false =>
    rw [if_neg (by simp), show name ++ str ": " ++ v = (name ++ [':']) ++ (' ' :: v) from by
      rw [show (str ": " : Str) = [':', ' '] from rfl]
      simp,
      replaceChar_append, replaceChar_of_not_mem _ (newline_not_mem_of_ws_free hname)]
    exact ⟨replaceChar '\n' (str "\n ") (' ' :: v) ++ str "\n", by simp⟩

lemma mdcf_terminator (name : Str) (v : Str) (wrap : Bool) :
    (MakeDebianControlField name (.s v) wrap).getLast? = some '\n' ∧
    nlSpaced (MakeDebianControlField name (.s v) wrap).dropLast = true := by
  rw [mdcf_shape, show (str "\n" : Str) = ['\n'] from rfl]
  constructor
  · exact List.getLast?_concat _
  · rw [List.dropLast_concat]
    exact nlSpaced_replaceChar _

/-- Claim C6 (amended): for every descriptor whose name contains no
whitespace, the rendered field begins with `<Name>:` and is terminated by a
single newline; every other embedded newline is immediately followed by a
space freshly inserted by the renderer (the continuation line keeps any
whitespace the value already had after it); a list value renders exactly as
its `", "`-join; a non-wrapped scalar renders as `<Name>: <value>` with one
space inserted after each embedded newline; and a wrapped scalar has its
newlines replaced by spaces and is then greedily wrapped to 70 columns
without breaking on hyphens or splitting a single long word (so a value
whose first word does not fit leaves `<Name>:` alone on the first line). -/
theorem makeDebianControlField_amended (name : Str) (value : FieldValue) (wrap : Bool)
    (hname : ∀ c ∈ name, isPyWs c = false) :
    (∃ t, MakeDebianControlField name value wrap = (name ++ [':']) ++ t) ∧
    (MakeDebianControlField name value wrap).getLast? = some '\n' ∧
    nlSpaced (MakeDebianControlField name value wrap).dropLast = true ∧
    (match value with
      | .l l => MakeDebianControlField name value wrap
          = MakeDebianControlField name (.s (pyJoin (str ", ") l)) wrap
      | .s _ => True) ∧
    (wrap = false → ∀ v, value = .s v →
      MakeDebianControlField name value wrap
        = (name ++ [':']) ++ ' ' :: (replaceChar '\n' (str "\n ") v ++ str "\n")) ∧
    (wrap = true → ∀ v, value = .s v →
      MakeDebianControlField name value wrap
        = replaceChar '\n' (str "\n ")
            (pyFill (name ++ str ": " ++ pyJoin (str " ") (splitChar '\n' v)))
          ++ str "\n") := by
  have hnl := newline_not_mem_name hname
  have key : ∀ w : Str,
      (∃ t, MakeDebianControlField name (.s w) wrap = (name ++ [':']) ++ t) ∧
      (MakeDebianControlField name (.s w) wrap).getLast? = some '\n' ∧
      nlSpaced (MakeDebianControlField name (.s w) wrap).dropLast = true :=
    fun w => ⟨mdcf_scalar_starts w wrap hname, mdcf_terminator name w wrap⟩
  cases value with
  | s v =>
    refine ⟨(key v).1, (key v).2.1, (key v).2.2, trivial, ?_, ?_⟩
    · rintro hw v' hv'
      cases hv'
      subst hw
      rw [mdcf_shape, if_neg (by simp),
        show name ++ str ": " ++ v = (name ++ [':']) ++ (' ' :: v) from by
          rw [show (str ": " : Str) = [':', ' '] from rfl]
          simp,
        replaceChar_append, replaceChar_of_not_mem _ (newline_not_mem_of_ws_free hname)]
      simp [replaceChar]
    · rintro hw v' hv'
      cases hv'
      subst hw
      rw [mdcf_shape, if_pos rfl]
  | l l =>
    rw [mdcf_list_eq_scalar]
    refine ⟨(key _).1, (key _).2.1, (key _).2.2, rfl, ?_, ?_⟩
    · rintro _ v' hv'
      exact absurd hv' (by simp)
    · rintro _ v' hv'
      exact absurd hv' (by simp)

/-- Concrete check of Claim C6's amended theorem at the `Description`
descriptor with a short wrapped value. -/
theorem makeDebianControlField_amended_witness :
    (∀ c ∈ str "Description", isPyWs c = false) ∧
    ((∃ t, MakeDebianControlField (str "Description") (.s (str "hello world")) true
        = (str "Description" ++ [':']) ++ t) ∧
      (MakeDebianControlField (str "Description") (.s (str "hello world")) true).getLast?
        = some '\n' ∧
      nlSpaced (MakeDebianControlField (str "Description")
        (.s (str "hello world")) true).dropLast = true) := by
  refine ⟨by decide, ?_⟩
  have h := makeDebianControlField_amended (str "Description")
    (.s (str "hello world")) true (by decide)
  exact ⟨h.1, h.2.1, h.2.2.1⟩

/-- Claim C3 fails on the code: the schema declares the relation fields with
`wrap = yes` (third tuple component `True` in `DEBIAN_FIELDS`), and a long
dependency list is in fact word-wrapped onto a continuation line (two
newlines in the rendered field: one wrap point and the terminator). -/
theorem debianFields_relations_counterexample :
    (¬ ∀ f ∈ DEBIAN_FIELDS,
      f.name ∈ [str "Depends", str "Recommends", str "Suggests", str "Enhances",
        str "Conflicts", str "Pre-Depends"] → f.wrap = false) ∧
    (MakeDebianControlField (str "Depends")
      (.l [str "libfoo (>= 1.0)", str "libbar (>= 2.0)",
        str "libbaz-long-name (>= 3.0)", str "libqux-other-name (>= 4.0)"]) true).count '\n'
      = 2 := by
  constructor
  · decide
  · decide

/-- Claim C3 (amended): the six relation fields are declared in the schema
as optional with an empty-list default and as WRAPPED (`wrap = yes`), so a
supplied value is comma-joined and then word-wrapped onto continuation
lines whenever it exceeds the wrap width. -/
theorem debianFields_relations_amended :
    ∀ f ∈ DEBIAN_FIELDS,
      f.name ∈ [str "Depends", str "Recommends", str "Suggests", str "Enhances",
        str "Conflicts", str "Pre-Depends"] →
      f.mandatory = false ∧ f.wrap = true ∧ f.dflt = some (.l []) := by
  decide

/-- Concrete check of Claim C3's amended theorem at the `Depends` row. -/
theorem debianFields_relations_amended_witness :
    ((⟨str "Depends", false, true, some (.l [])⟩ : FieldSpec) ∈ DEBIAN_FIELDS ∧
      (str "Depends" : Str) ∈ [str "Depends", str "Recommends", str "Suggests",
        str "Enhances", str "Conflicts", str "Pre-Depends"]) ∧
    ((⟨str "Depends", false, true, some (.l [])⟩ : FieldSpec).mandatory = false ∧
      (⟨str "Depends", false, true, some (.l [])⟩ : FieldSpec).wrap = true ∧
      (⟨str "Depends", false, true, some (.l [])⟩ : FieldSpec).dflt = some (.l [])) :=
  ⟨⟨by decide, by decide⟩,
    debianFields_relations_amended ⟨str "Depends", false, true, some (.l [])⟩
      (by decide) (by decide)⟩

lemma truthyOpt_some (v : FieldValue) : truthyOpt (some v) = truthy v := rfl

lemma pickField_render {kwargs : Kwargs} {f : FieldSpec} {v : FieldValue}
    (hlk : lookupKw kwargs (keyOf f.name) = some v)
    (hren : (f.mandatory || truthy v) = true) :
    pickField kwargs f = some (MakeDebianControlField f.name v f.wrap) := by
  unfold pickField
  rw [hlk]
  exact if_pos hren

lemma pickField_skip {kwargs : Kwargs} {f : FieldSpec} {v : FieldValue}
    (hlk : lookupKw kwargs (keyOf f.name) = some v)
    (hren : (f.mandatory || truthy v) = false) :
    pickField kwargs f = none := by
  unfold pickField
  rw [hlk]
  exact if_neg (by simp [hren])

lemma pickField_absent {kwargs : Kwargs} {f : FieldSpec}
    (hlk : lookupKw kwargs (keyOf f.name) = none) :
    pickField kwargs f = none := by
  unfold pickField
  rw [hlk]

lemma controlFold_cons (kwargs : Kwargs) (g : FieldSpec) (rest : List FieldSpec)
    (acc : Str) :
    controlFold kwargs (g :: rest) acc
      = if (g.mandatory || truthyOpt (lookupKw kwargs (keyOf g.name))) = true then
          (match lookupKw kwargs (keyOf g.name) with
            | some v => controlFold kwargs rest (acc ++ MakeDebianControlField g.name v g.wrap)
            | none => .error (.keyError (keyOf g.name)))
        else controlFold kwargs rest acc := rfl

lemma controlFold_ok {kwargs : Kwargs} :
    ∀ (fields : List FieldSpec) (acc : Str),
      (∀ f ∈ fields, f.mandatory = true → (lookupKw kwargs (keyOf f.name)).isSome) →
      controlFold kwargs fields acc
        = .ok (acc ++ (fields.filterMap (pickField kwargs)).flatten) := by
  intro fields
  induction fields with
  | nil =>
    intro acc h
    simp [controlFold]
  | cons g rest ih =>
    intro acc h
    have htail : ∀ f ∈ rest, f.mandatory = true → (lookupKw kwargs (keyOf f.name)).isSome :=
      fun f hf => h f (by simp [hf])
    rw [controlFold_cons]
    by_cases hcond : (g.mandatory || truthyOpt (lookupKw kwargs (keyOf g.name))) = true
    · rw [if_pos hcond]
      cases hlk : lookupKw kwargs (keyOf g.name) with
      | some v =>
        have hren : (g.mandatory || truthy v) = true := by
          rw [hlk, truthyOpt_some] at hcond
          exact hcond
        dsimp only
        rw [ih _ htail, List.filterMap_cons, pickField_render hlk hren]
        simp [List.append_assoc]
      | none =>
        have hgman : g.mandatory = true := by
          rw [hlk] at hcond
          simpa [truthyOpt] using hcond
        have hsome := h g (by simp) hgman
        rw [hlk] at hsome
        simp at hsome
    · rw [if_neg hcond, ih _ htail, List.filterMap_cons]
      cases hlk : lookupKw kwargs (keyOf g.name) with
      | some v =>
        have hnt : (g.mandatory || truthy v) = false := by
          rw [hlk, truthyOpt_some] at hcond
          simpa using hcond
        rw [pickField_skip hlk hnt]
      | none =>
        rw [pickField_absent hlk]

lemma controlFold_err {kwargs : Kwargs} :
    ∀ (fields : List FieldSpec) (acc : Str),
      (∃ f ∈ fields, f.mandatory = true ∧ lookupKw kwargs (keyOf f.name) = none) →
      ∃ key, controlFold kwargs fields acc = .error (.keyError key) := by
  intro fields
  induction fields with
  | nil =>
    rintro acc ⟨f, hf, -⟩
    exact absurd hf (by simp)
  | cons g rest ih =>
    rintro acc ⟨f, hf, hman, hnone⟩
    rw [controlFold_cons]
    rcases List.mem_cons.mp hf with hfg | hftail
    · subst hfg
      refine ⟨keyOf f.name, ?_⟩
      rw [if_pos (by rw [hnone, hman]; rfl), hnone]
    · by_cases hcond : (g.mandatory || truthyOpt (lookupKw kwargs (keyOf g.name))) = true
      · rw [if_pos hcond]
        cases hlk : lookupKw kwargs (keyOf g.name) with
        | some v =>
          obtain ⟨key, hk⟩ := ih (acc ++ MakeDebianControlField g.name v g.wrap)
            ⟨f, hftail, hman, hnone⟩
          exact ⟨key, hk⟩
        | none =>
          exact ⟨keyOf g.name, rfl⟩
      · rw [if_neg hcond]
        exact ih acc ⟨f, hftail, hman, hnone⟩

/-- Claim C7: with every mandatory field supplied, the rendered control file
is the concatenation, in schema-table order, of one rendered field per
descriptor, where an optional field whose value is absent or falsy
contributes no output at all; the schema order starts at `Package` and ends
at `Urgency`. -/
theorem createDebControlFile_schema_order (kwargs : Kwargs)
    (h : ∀ f ∈ DEBIAN_FIELDS, f.mandatory = true → (lookupKw kwargs (keyOf f.name)).isSome) :
    CreateDebControlFile kwargs
      = .ok ((DEBIAN_FIELDS.filterMap (pickField kwargs)).flatten) ∧
    (DEBIAN_FIELDS.map FieldSpec.name).head? = some (str "Package") ∧
    (DEBIAN_FIELDS.map FieldSpec.name).getLast? = some (str "Urgency") := by
  refine ⟨?_, by decide, by decide⟩
  have := controlFold_ok DEBIAN_FIELDS [] h
  simpa [CreateDebControlFile] using this

/-- Concrete check of Claim C7's theorem: metadata with the four mandatory
fields and one truthy optional field. -/
theorem createDebControlFile_schema_order_witness :
    (∀ f ∈ DEBIAN_FIELDS, f.mandatory = true →
      (lookupKw [(str "package", .s (str "foo")), (str "version", .s (str "1.0")),
        (str "maintainer", .s (str "m@example.com")), (str "description", .s (str "demo")),
        (str "homepage", .s (str "example.com"))] (keyOf f.name)).isSome) ∧
    CreateDebControlFile [(str "package", .s (str "foo")), (str "version", .s (str "1.0")),
        (str "maintainer", .s (str "m@example.com")), (str "description", .s (str "demo")),
        (str "homepage", .s (str "example.com"))]
      = .ok ((DEBIAN_FIELDS.filterMap (pickField
          [(str "package", .s (str "foo")), (str "version", .s (str "1.0")),
            (str "maintainer", .s (str "m@example.com")),
            (str "description", .s (str "demo")),
            (str "homepage", .s (str "example.com"))])).flatten) :=
  ⟨by decide,
    (createDebControlFile_schema_order
      [(str "package", .s (str "foo")), (str "version", .s (str "1.0")),
        (str "maintainer", .s (str "m@example.com")), (str "description", .s (str "demo")),
        (str "homepage", .s (str "example.com"))] (by decide)).1⟩

/-- Claim C1 fails on the code: metadata whose mandatory `Package` field is
present but EMPTY builds the package without raising anything (the loop
only short-circuits on truthiness for optional fields; a mandatory field's
value is rendered even when empty, and no ValidationError exists in the
source). -/
theorem createDeb_empty_mandatory_counterexample :
    (CreateDeb (fun es => (es.map TarEntry.content).flatten) (fun bs => bs) 0
      (str "payload.tar") [1, 2, 3] none none none none none
      [(str "package", .s []), (str "version", .s (str "1.0")),
        (str "maintainer", .s (str "m@example.com")),
        (str "description", .s (str "demo"))]).isOk = true := by
  decide

/-- Claim C1 (amended): a mandatory field that is ABSENT from the metadata
mapping makes `CreateDeb` raise `KeyError` — the only validation the code
performs — and the error is raised while building the control tarball,
before the output file is opened, so no bytes are written (the error result
carries no output).  A mandatory field that is present but empty raises
nothing: the build succeeds and renders the field with an empty value. -/
theorem createDeb_mandatory_amended (tarSer : List TarEntry → List Nat)
    (compress : List Nat → List Nat) (clock : Nat) (dataName : Str)
    (dataContent : List Nat) (preinst postinst prerm postrm : Option Str)
    (conffiles : Option (List Str)) (kwargs : Kwargs) :
    ((∃ f ∈ DEBIAN_FIELDS, f.mandatory = true ∧ lookupKw kwargs (keyOf f.name) = none) →
      ∃ key, CreateDeb tarSer compress clock dataName dataContent
        preinst postinst prerm postrm conffiles kwargs = .error (.keyError key)) ∧
    ((∀ f ∈ DEBIAN_FIELDS, f.mandatory = true → (lookupKw kwargs (keyOf f.name)).isSome) →
      (CreateDeb tarSer compress clock dataName dataContent
        preinst postinst prerm postrm conffiles kwargs).isOk = true) := by
  constructor
  · intro h
    obtain ⟨key, hk⟩ := controlFold_err DEBIAN_FIELDS [] h
    refine ⟨key, ?_⟩
    simp [CreateDeb, CreateDebMembers, CreateDebControl, CreateDebControlFile, hk,
      Bind.bind, Except.bind]
  · intro h
    have hok := controlFold_ok DEBIAN_FIELDS [] h
    simp [CreateDeb, CreateDebMembers, CreateDebControl, CreateDebControlFile, hok,
      Bind.bind, Except.bind, Except.isOk, Except.toBool]

/-- Concrete check of Claim C1's amended theorem: metadata missing the
mandatory `Package` key errs, and metadata with all mandatory keys present
(one of them empty) succeeds. -/
theorem createDeb_mandatory_amended_witness :
    ((∃ f ∈ DEBIAN_FIELDS, f.mandatory = true ∧
        lookupKw [(str "version", .s (str "1.0")),
          (str "maintainer", .s (str "m@example.com")),
          (str "description", .s (str "demo"))] (keyOf f.name) = none) ∧
      (∃ key, CreateDeb (fun es => (es.map TarEntry.content).flatten) (fun bs => bs) 0
        (str "payload.tar") [1, 2, 3] none none none none none
        [(str "version", .s (str "1.0")),
          (str "maintainer", .s (str "m@example.com")),
          (str "description", .s (str "demo"))] = .error (.keyError key))) ∧
    ((∀ f ∈ DEBIAN_FIELDS, f.mandatory = true →
        (lookupKw [(str "package", .s (str "foo")), (str "version", .s (str "1.0")),
          (str "maintainer", .s (str "m@example.com")),
          (str "description", .s (str "demo"))] (keyOf f.name)).isSome) ∧
      (CreateDeb (fun es => (es.map TarEntry.content).flatten) (fun bs => bs) 0
        (str "payload.tar") [1, 2, 3] none none none none none
        [(str "package", .s (str "foo")), (str "version", .s (str "1.0")),
          (str "maintainer", .s (str "m@example.com")),
          (str "description", .s (str "demo"))]).isOk = true) :=
  ⟨⟨by decide,
    (createDeb_mandatory_amended (fun es => (es.map TarEntry.content).flatten)
      (fun bs => bs) 0 (str "payload.tar") [1, 2, 3] none none none none none
      [(str "version", .s (str "1.0")), (str "maintainer", .s (str "m@example.com")),
        (str "description", .s (str "demo"))]).1 (by decide)⟩,
   ⟨by decide,
    (createDeb_mandatory_amended (fun es => (es.map TarEntry.content).flatten)
      (fun bs => bs) 0 (str "payload.tar") [1, 2, 3] none none none none none
      [(str "package", .s (str "foo")), (str "version", .s (str "1.0")),
        (str "maintainer", .s (str "m@example.com")),
        (str "description", .s (str "demo"))]).2 (by decide)⟩⟩

/-- Claim C2: the third AR member written by `CreateDeb` is named
`data.<ext>` where `<ext>` follows exactly the claim's case analysis of the
data filename's last one or two dot-separated components (`claimedDataExt`
restates the claim; `debDataExt` is the source's computation), and the two
worked examples hold: `payload.tgz` maps to `data.tar.gz` and `payload.xyz`
to `data.tar`. -/
theorem createDeb_data_member_name (tarSer : List TarEntry → List Nat)
    (compress : List Nat → List Nat) (clock : Nat) (dataName : Str)
    (dataContent : List Nat) (preinst postinst prerm postrm : Option Str)
    (conffiles : Option (List Str)) (kwargs : Kwargs)
    (h : ∀ f ∈ DEBIAN_FIELDS, f.mandatory = true → (lookupKw kwargs (keyOf f.name)).isSome) :
    (∃ ms, CreateDebMembers tarSer compress clock dataName dataContent
        preinst postinst prerm postrm conffiles kwargs = .ok ms ∧
      ms.map Prod.fst = [str "debian-binary", str "control.tar.gz",
        str "data." ++ debDataExt (pyBasename dataName)]) ∧
    (∀ s, debDataExt s = claimedDataExt s) ∧
    debDataExt (pyBasename (str "payload.tgz")) = str "tar.gz" ∧
    debDataExt (pyBasename (str "payload.xyz")) = str "tar" := by
  refine ⟨?_, debDataExt_eq_claimedDataExt, by decide, by decide⟩
  have hok := controlFold_ok DEBIAN_FIELDS [] h
  refine ⟨[(str "debian-binary", encodeAscii (str "2.0\n")),
    (str "control.tar.gz", gzipWrap compress clock (some 0)
      (tarSer (controlTarEntries ((List.filterMap (pickField kwargs) DEBIAN_FIELDS).flatten)
        (mkExtraFiles preinst postinst prerm postrm conffiles)))),
    (str "data." ++ debDataExt (pyBasename dataName), dataContent)], ?_, by simp⟩
  simp [CreateDebMembers, CreateDebControl, CreateDebControlFile, hok,
    Bind.bind, Except.bind]

/-- Concrete check of Claim C2's theorem at a `payload.tgz` data path. -/
theorem createDeb_data_member_name_witness :
    (∀ f ∈ DEBIAN_FIELDS, f.mandatory = true →
      (lookupKw [(str "package", .s (str "foo")), (str "version", .s (str "1.0")),
        (str "maintainer", .s (str "m@example.com")),
        (str "description", .s (str "demo"))] (keyOf f.name)).isSome) ∧
    ((∃ ms, CreateDebMembers (fun es => (es.map TarEntry.content).flatten) (fun bs => bs) 0
        (str "dir/payload.tgz") [1, 2, 3] none none none none none
        [(str "package", .s (str "foo")), (str "version", .s (str "1.0")),
          (str "maintainer", .s (str "m@example.com")),
          (str "description", .s (str "demo"))] = .ok ms ∧
      ms.map Prod.fst = [str "debian-binary", str "control.tar.gz",
        str "data." ++ debDataExt (pyBasename (str "dir/payload.tgz"))]) ∧
    (∀ s, debDataExt s = claimedDataExt s) ∧
    debDataExt (pyBasename (str "payload.tgz")) = str "tar.gz" ∧
    debDataExt (pyBasename (str "payload.xyz")) = str "tar") :=
  ⟨by decide,
    createDeb_data_member_name (fun es => (es.map TarEntry.content).flatten) (fun bs => bs) 0
      (str "dir/payload.tgz") [1, 2, 3] none none none none none
      [(str "package", .s (str "foo")), (str "version", .s (str "1.0")),
        (str "maintainer", .s (str "m@example.com")),
        (str "description", .s (str "demo"))] (by decide)⟩

lemma mem_scriptEntry_iff (name : Str) (o : Option Str) (p : Str × Str × Nat) :
    p ∈ scriptEntry name o ↔ ∃ s, o = some s ∧ s ≠ [] ∧ p = (name, s, 0o755) := by
  cases o with
  | none => simp [scriptEntry]
  | some s =>
    by_cases hs : s.isEmpty
    · rw [show s = [] from by simpa using hs]
      simp [scriptEntry]
    · have hne : s ≠ [] := by simpa using hs
      simp [scriptEntry, hs, hne]

lemma mem_conffilesEntry_iff (o : Option (List Str)) (p : Str × Str × Nat) :
    p ∈ conffilesEntry o ↔ ∃ l, o = some l ∧ l ≠ [] ∧
      p = (str "conffiles", pyJoin (str "\n") l ++ str "\n", 0o644) := by
  cases o with
  | none => simp [conffilesEntry]
  | some l =>
    by_cases hl : l.isEmpty
    · rw [show l = [] from by simpa using hl]
      simp [conffilesEntry]
    · have hne : l ≠ [] := by simpa using hl
      simp [conffilesEntry, hl, hne]

lemma mkExtraFiles_name_cases (preinst postinst prerm postrm : Option Str)
    (conffiles : Option (List Str)) :
    ∀ p ∈ mkExtraFiles preinst postinst prerm postrm conffiles,
      (∃ s, preinst = some s ∧ s ≠ [] ∧ p = (str "preinst", s, 0o755)) ∨
      (∃ s, postinst = some s ∧ s ≠ [] ∧ p = (str "postinst", s, 0o755)) ∨
      (∃ s, prerm = some s ∧ s ≠ [] ∧ p = (str "prerm", s, 0o755)) ∨
      (∃ s, postrm = some s ∧ s ≠ [] ∧ p = (str "postrm", s, 0o755)) ∨
      (∃ l, conffiles = some l ∧ l ≠ [] ∧
        p = (str "conffiles", pyJoin (str "\n") l ++ str "\n", 0o644)) := by
  intro p hp
  simp only [mkExtraFiles, List.mem_append] at hp
  rcases hp with ((((h | h) | h) | h) | h)
  · exact Or.inl ((mem_scriptEntry_iff _ _ _).mp h)
  · exact Or.inr (Or.inl ((mem_scriptEntry_iff _ _ _).mp h))
  · exact Or.inr (Or.inr (Or.inl ((mem_scriptEntry_iff _ _ _).mp h)))
  · exact Or.inr (Or.inr (Or.inr (Or.inl ((mem_scriptEntry_iff _ _ _).mp h))))
  · exact Or.inr (Or.inr (Or.inr (Or.inr ((mem_conffilesEntry_iff _ _).mp h))))

lemma mem_controlTarEntries_of_extra {controlfile : Str}
    {efs : List (Str × Str × Nat)} {p : Str × Str × Nat} (hp : p ∈ efs) :
    (⟨p.1, p.2.1.length, p.2.2, encodeUtf8 p.2.1⟩ : TarEntry)
      ∈ controlTarEntries controlfile efs := by
  simp only [controlTarEntries, List.mem_cons, List.mem_map]
  exact Or.inr ⟨p, hp, rfl⟩

/-- Claim C10: in the control tarball, every supplied non-empty maintainer
script becomes a tar entry with mode `0o755` (declared size the script's
length, content its body), supplied conffile paths become a `conffiles`
entry — newline-joined with a trailing newline — with mode `0o644`, and a
script argument that is `None` or empty yields no tar entry of that name at
all. -/
theorem controlTar_script_modes (controlfile : Str)
    (preinst postinst prerm postrm : Option Str) (conffiles : Option (List Str)) :
    (∀ s, preinst = some s → s ≠ [] →
      (⟨str "preinst", s.length, 0o755, encodeUtf8 s⟩ : TarEntry) ∈
        controlTarEntries controlfile
          (mkExtraFiles preinst postinst prerm postrm conffiles)) ∧
    (∀ s, postinst = some s → s ≠ [] →
      (⟨str "postinst", s.length, 0o755, encodeUtf8 s⟩ : TarEntry) ∈
        controlTarEntries controlfile
          (mkExtraFiles preinst postinst prerm postrm conffiles)) ∧
    (∀ s, prerm = some s → s ≠ [] →
      (⟨str "prerm", s.length, 0o755, encodeUtf8 s⟩ : TarEntry) ∈
        controlTarEntries controlfile
          (mkExtraFiles preinst postinst prerm postrm conffiles)) ∧
    (∀ s, postrm = some s → s ≠ [] →
      (⟨str "postrm", s.length, 0o755, encodeUtf8 s⟩ : TarEntry) ∈
        controlTarEntries controlfile
          (mkExtraFiles preinst postinst prerm postrm conffiles)) ∧
    (∀ l, conffiles = some l → l ≠ [] →
      (⟨str "conffiles", (pyJoin (str "\n") l ++ str "\n").length, 0o644,
        encodeUtf8 (pyJoin (str "\n") l ++ str "\n")⟩ : TarEntry) ∈
        controlTarEntries controlfile
          (mkExtraFiles preinst postinst prerm postrm conffiles)) ∧
    ((preinst = none ∨ preinst = some []) →
      ∀ e ∈ controlTarEntries controlfile
          (mkExtraFiles preinst postinst prerm postrm conffiles),
        e.name ≠ str "preinst") ∧
    ((postinst = none ∨ postinst = some []) →
      ∀ e ∈ controlTarEntries controlfile
          (mkExtraFiles preinst postinst prerm postrm conffiles),
        e.name ≠ str "postinst") ∧
    ((prerm = none ∨ prerm = some []) →
      ∀ e ∈ controlTarEntries controlfile
          (mkExtraFiles preinst postinst prerm postrm conffiles),
        e.name ≠ str "prerm") ∧
    ((postrm = none ∨ postrm = some []) →
      ∀ e ∈ controlTarEntries controlfile
          (mkExtraFiles preinst postinst prerm postrm conffiles),
        e.name ≠ str "postrm") := by
  refine ⟨?_, ?_, ?_, ?_, ?_, ?_, ?_, ?_, ?_⟩
  · intro s hs hne
    have hin : (str "preinst", s, 0o755)
        ∈ mkExtraFiles preinst postinst prerm postrm conffiles := by
      simp only [mkExtraFiles, List.mem_append]
      exact Or.inl (Or.inl (Or.inl (Or.inl ((mem_scriptEntry_iff _ _ _).mpr ⟨s, hs, hne, rfl⟩))))
    exact mem_controlTarEntries_of_extra hin
  · intro s hs hne
    have hin : (str "postinst", s, 0o755)
        ∈ mkExtraFiles preinst postinst prerm postrm conffiles := by
      simp only [mkExtraFiles, List.mem_append]
      exact Or.inl (Or.inl (Or.inl (Or.inr ((mem_scriptEntry_iff _ _ _).mpr ⟨s, hs, hne, rfl⟩))))
    exact mem_controlTarEntries_of_extra hin
  · intro s hs hne
    have hin : (str "prerm", s, 0o755)
        ∈ mkExtraFiles preinst postinst prerm postrm conffiles := by
      simp only [mkExtraFiles, List.mem_append]
      exact Or.inl (Or.inl (Or.inr ((mem_scriptEntry_iff _ _ _).mpr ⟨s, hs, hne, rfl⟩)))
    exact mem_controlTarEntries_of_extra hin
  · intro s hs hne
    have hin : (str "postrm", s, 0o755)
        ∈ mkExtraFiles preinst postinst prerm postrm conffiles := by
      simp only [mkExtraFiles, List.mem_append]
      exact Or.inl (Or.inr ((mem_scriptEntry_iff _ _ _).mpr ⟨s, hs, hne, rfl⟩))
    exact mem_controlTarEntries_of_extra hin
  · intro l hl hne
    have hin : (str "conffiles", pyJoin (str "\n") l ++ str "\n", 0o644)
        ∈ mkExtraFiles preinst postinst prerm postrm conffiles := by
      simp only [mkExtraFiles, List.mem_append]
      exact Or.inr ((mem_conffilesEntry_iff _ _).mpr ⟨l, hl, hne, rfl⟩)
    exact mem_controlTarEntries_of_extra hin
  · intro habs e he
    simp only [controlTarEntries, List.mem_cons, List.mem_map] at he
    rcases he with rfl | ⟨p, hp, rfl⟩
    · show str "control" ≠ str "preinst"
      decide
    · show p.1 ≠ str "preinst"
      intro hname
      rcases mkExtraFiles_name_cases preinst postinst prerm postrm conffiles p hp with
        ⟨s, hsome, hne, rfl⟩ | ⟨s, hsome, hne, rfl⟩ | ⟨s, hsome, hne, rfl⟩ |
        ⟨s, hsome, hne, rfl⟩ | ⟨l, hsome, hne, rfl⟩
      · rcases habs with habs | habs
        · rw [habs] at hsome
          exact Option.noConfusion hsome
        · rw [habs] at hsome
          injection hsome with hh
          exact hne hh.symm
      · exact (by decide : ¬ (str "postinst" : Str) = str "preinst") hname
      · exact (by decide : ¬ (str "prerm" : Str) = str "preinst") hname
      · exact (by decide : ¬ (str "postrm" : Str) = str "preinst") hname
      · exact (by decide : ¬ (str "conffiles" : Str) = str "preinst") hname
  · intro habs e he
    simp only [controlTarEntries, List.mem_cons, List.mem_map] at he
    rcases he with rfl | ⟨p, hp, rfl⟩
    · show str "control" ≠ str "postinst"
      decide
    · show p.1 ≠ str "postinst"
      intro hname
      rcases mkExtraFiles_name_cases preinst postinst prerm postrm conffiles p hp with
        ⟨s, hsome, hne, rfl⟩ | ⟨s, hsome, hne, rfl⟩ | ⟨s, hsome, hne, rfl⟩ |
        ⟨s, hsome, hne, rfl⟩ | ⟨l, hsome, hne, rfl⟩
      · exact (by decide : ¬ (str "preinst" : Str) = str "postinst") hname
      · rcases habs with habs | habs
        · rw [habs] at hsome
          exact Option.noConfusion hsome
        · rw [habs] at hsome
          injection hsome with hh
          exact hne hh.symm
      · exact (by decide : ¬ (str "prerm" : Str) = str "postinst") hname
      · exact (by decide : ¬ (str "postrm" : Str) = str "postinst") hname
      · exact (by decide : ¬ (str "conffiles" : Str) = str "postinst") hname
  · intro habs e he
    simp only [controlTarEntries, List.mem_cons, List.mem_map] at he
    rcases he with rfl | ⟨p, hp, rfl⟩
    · show str "control" ≠ str "prerm"
      decide
    · show p.1 ≠ str "prerm"
      intro hname
      rcases mkExtraFiles_name_cases preinst postinst prerm postrm conffiles p hp with
        ⟨s, hsome, hne, rfl⟩ | ⟨s, hsome, hne, rfl⟩ | ⟨s, hsome, hne, rfl⟩ |
        ⟨s, hsome, hne, rfl⟩ | ⟨l, hsome, hne, rfl⟩
      · exact (by decide : ¬ (str "preinst" : Str) = str "prerm") hname
      · exact (by decide : ¬ (str "postinst" : Str) = str "prerm") hname
      · rcases habs with habs | habs
        · rw [habs] at hsome
          exact Option.noConfusion hsome
        · rw [habs] at hsome
          injection hsome with hh
          exact hne hh.symm
      · exact (by decide : ¬ (str "postrm" : Str) = str "prerm") hname
      · exact (by decide : ¬ (str "conffiles" : Str) = str "prerm") hname
  · intro habs e he
    simp only [controlTarEntries, List.mem_cons, List.mem_map] at he
    rcases he with rfl | ⟨p, hp, rfl⟩
    · show str "control" ≠ str "postrm"
      decide
    · show p.1 ≠ str "postrm"
      intro hname
      rcases mkExtraFiles_name_cases preinst postinst prerm postrm conffiles p hp with
        ⟨s, hsome, hne, rfl⟩ | ⟨s, hsome, hne, rfl⟩ | ⟨s, hsome, hne, rfl⟩ |
        ⟨s, hsome, hne, rfl⟩ | ⟨l, hsome, hne, rfl⟩
      · exact (by decide : ¬ (str "preinst" : Str) = str "postrm") hname
      · exact (by decide : ¬ (str "postinst" : Str) = str "postrm") hname
      · exact (by decide : ¬ (str "prerm" : Str) = str "postrm") hname
      · rcases habs with habs | habs
        · rw [habs] at hsome
          exact Option.noConfusion hsome
        · rw [habs] at hsome
          injection hsome with hh
          exact hne hh.symm
      · exact (by decide : ¬ (str "conffiles" : Str) = str "postrm") hname

/-- Concrete check of Claim C10's theorem: a supplied `postinst` script and
one conffile path. -/
theorem controlTar_script_modes_witness :
    ((some (str "echo hi") : Option Str) = some (str "echo hi") ∧ str "echo hi" ≠ [] ∧
      (some [str "/etc/app.conf"] : Option (List Str)) = some [str "/etc/app.conf"] ∧
      [str "/etc/app.conf"] ≠ [] ∧
      ((none : Option Str) = none ∨ (none : Option Str) = some [])) ∧
    ((⟨str "postinst", (str "echo hi").length, 0o755, encodeUtf8 (str "echo hi")⟩ :
        TarEntry) ∈
      controlTarEntries (str "Package: foo\n")
        (mkExtraFiles none (some (str "echo hi")) none none
          (some [str "/etc/app.conf"])) ∧
    (⟨str "conffiles",
        (pyJoin (str "\n") [str "/etc/app.conf"] ++ str "\n").length, 0o644,
        encodeUtf8 (pyJoin (str "\n") [str "/etc/app.conf"] ++ str "\n")⟩ :
        TarEntry) ∈
      controlTarEntries (str "Package: foo\n")
        (mkExtraFiles none (some (str "echo hi")) none none
          (some [str "/etc/app.conf"])) ∧
    (∀ e ∈ controlTarEntries (str "Package: foo\n")
        (mkExtraFiles none (some (str "echo hi")) none none
          (some [str "/etc/app.conf"])),
      e.name ≠ str "preinst")) := by
  have h := controlTar_script_modes (str "Package: foo\n") none (some (str "echo hi"))
    none none (some [str "/etc/app.conf"])
  exact ⟨⟨rfl, by decide, rfl, by decide, Or.inl rfl⟩,
    h.2.1 (str "echo hi") rfl (by decide),
    h.2.2.2.2.1 [str "/etc/app.conf"] rfl (by decide),
    h.2.2.2.2.2.1 (Or.inl rfl)⟩

/-- Claim C5: `CreateDebControl` is reproducible — its output is independent
of the wall clock, because the gzip wrapper is invoked with the fixed
modification time zero (the library would consult the clock only if no
`mtime` were supplied) — and on success the four mtime bytes of the gzip
header (offsets 4-7) are exactly the little-endian encoding of zero,
whatever the clock reads.  Byte-identical inputs therefore give
byte-identical outputs: the result is a function of the metadata and extra
files alone. -/
theorem createDebControl_reproducible (tarSer : List TarEntry → List Nat)
    (compress : List Nat → List Nat) (clock₁ clock₂ : Nat)
    (extrafiles : List (Str × Str × Nat)) (kwargs : Kwargs) :
    CreateDebControl tarSer compress clock₁ extrafiles kwargs
      = CreateDebControl tarSer compress clock₂ extrafiles kwargs ∧
    (CreateDebControl tarSer compress clock₁ extrafiles kwargs).toOption.map
        (fun bs => (bs.drop 4).take 4)
      = (CreateDebControl tarSer compress clock₁ extrafiles kwargs).toOption.map
        (fun _ => le4 0) := by
  constructor
  · rfl
  · cases h : CreateDebControlFile kwargs with
    | error e =>
      simp only [CreateDebControl, h, Bind.bind, Except.bind]
      rfl
    | ok ctl =>
      simp only [CreateDebControl, h, Bind.bind, Except.bind]
      rfl

lemma readChunksFuel_nil (fuel : Nat) : readChunksFuel fuel [] = [] := by
  cases fuel <;> rfl

lemma readChunksFuel_flatten :
    ∀ (fuel : Nat) (l : List Nat), l.length ≤ fuel → (readChunksFuel fuel l).flatten = l := by
  intro fuel
  induction fuel with
  | zero =>
    intro l h
    have hnil : l = [] := List.eq_nil_of_length_eq_zero (Nat.le_zero.mp h)
    subst hnil
    rfl
  | succ n ih =>
    intro l h
    cases l with
    | nil => rfl
    | cons x xs =>
      show (List.take 1048576 (x :: xs) :: readChunksFuel n ((x :: xs).drop 1048576)).flatten
        = x :: xs
      rw [List.flatten_cons, ih _ (by simp at h ⊢; omega)]
      exact List.take_append_drop _ _

lemma readChunksFuel_sizes :
    ∀ (fuel : Nat) (l : List Nat), ∀ c ∈ readChunksFuel fuel l,
      c ≠ [] ∧ c.length ≤ 1048576 := by
  intro fuel
  induction fuel with
  | zero =>
    intro l c hc
    simp [readChunksFuel] at hc
  | succ n ih =>
    intro l c hc
    cases l with
    | nil => simp [readChunksFuel] at hc
    | cons x xs =>
      rcases List.mem_cons.mp hc with rfl | htail
      · refine ⟨by simp, by simp⟩
      · exact ih _ c htail

lemma readChunksFuel_full :
    ∀ (fuel : Nat) (l : List Nat), ∀ c ∈ (readChunksFuel fuel l).dropLast,
      c.length = 1048576 := by
  intro fuel
  induction fuel with
  | zero =>
    intro l c hc
    simp [readChunksFuel] at hc
  | succ n ih =>
    intro l c hc
    cases l with
    | nil => simp [readChunksFuel] at hc
    | cons x xs =>
      have hshape : readChunksFuel (n + 1) (x :: xs)
          = List.take 1048576 (x :: xs) :: readChunksFuel n ((x :: xs).drop 1048576) := rfl
      rw [hshape] at hc
      cases hrec : readChunksFuel n ((x :: xs).drop 1048576) with
      | nil =>
        rw [hrec] at hc
        simp at hc
      | cons r rs =>
        rw [hrec] at hc
        rw [show (List.take 1048576 (x :: xs) :: r :: rs).dropLast
            = List.take 1048576 (x :: xs) :: (r :: rs).dropLast from rfl] at hc
        rcases List.mem_cons.mp hc with rfl | htail
        · have hne : (x :: xs).drop 1048576 ≠ [] := by
            intro hnil
            rw [hnil, readChunksFuel_nil] at hrec
            exact List.noConfusion hrec
          have hgt : 1048576 < (x :: xs).length := by
            by_contra hle
            exact hne (List.drop_eq_nil_of_le (by omega))
          simp only [List.length_cons] at hgt
          simp [List.length_take]
          omega
        · exact ih _ c (hrec ▸ htail)

lemma foldl_update_states (chunks : List (List Nat)) :
    ∀ sts : List (Str × (Σ a : HashAlg, a.State)),
      chunks.foldl
        (fun sts buf => sts.map (fun s => (s.1, ⟨s.2.1, s.2.1.update s.2.2 buf⟩)))
        sts
      = sts.map (fun s => (s.1, ⟨s.2.1, s.2.1.update s.2.2 chunks.flatten⟩)) := by
  induction chunks with
  | nil =>
    intro sts
    show sts = _
    have hpt : ∀ s : Str × (Σ a : HashAlg, a.State),
        (s.1, (⟨s.2.1, s.2.1.update s.2.2 ([] : List (List Nat)).flatten⟩ :
          Σ a : HashAlg, a.State)) = s := by
      intro s
      rw [show (([] : List (List Nat)).flatten) = [] from rfl, s.2.1.update_nil]
    calc sts = sts.map id := (List.map_id sts).symm
      _ = _ := (List.map_congr_left (fun s _ => (hpt s).symm))
  | cons c rest ih =>
    intro sts
    show rest.foldl _ (sts.map _) = _
    rw [ih, List.map_map]
    refine List.map_congr_left (fun s _ => ?_)
    show (s.1, (⟨s.2.1, s.2.1.update (s.2.1.update s.2.2 c) rest.flatten⟩ :
      Σ a : HashAlg, a.State)) = _
    rw [List.flatten_cons, s.2.1.update_append]

/-- Claim C9: `GetChecksumsFromFile` reads the file once — the 1 MiB reads
concatenate to the complete content, every read except the last is exactly
1 MiB and none is empty — updates every requested algorithm's state on
every chunk, and the result maps each algorithm name to the hex digest of
the file's COMPLETE contents, made of lower-case hexadecimal characters.
Being a pure function of the content, two runs on an unchanged file return
identical digests. -/
theorem getChecksumsFromFile_single_pass (content : List Nat)
    (hashFns : List (Str × HashAlg)) :
    GetChecksumsFromFile content hashFns
      = hashFns.map (fun p => (p.1, p.2.hexdigest (p.2.update p.2.init content))) ∧
    (readChunks content).flatten = content ∧
    (∀ c ∈ readChunks content, c ≠ [] ∧ c.length ≤ 1048576) ∧
    (∀ c ∈ (readChunks content).dropLast, c.length = 1048576) ∧
    (∀ p ∈ GetChecksumsFromFile content hashFns,
      ∀ ch ∈ p.2, ch ∈ str "0123456789abcdef") := by
  have hflat : (readChunks content).flatten = content :=
    readChunksFuel_flatten content.length content (le_refl _)
  have heq : GetChecksumsFromFile content hashFns
      = hashFns.map (fun p => (p.1, p.2.hexdigest (p.2.update p.2.init content))) := by
    unfold GetChecksumsFromFile
    rw [foldl_update_states, hflat, List.map_map, List.map_map]
    rfl
  refine ⟨heq, hflat, fun c hc => readChunksFuel_sizes _ _ c hc,
    fun c hc => readChunksFuel_full _ _ c hc, ?_⟩
  intro p hp
  rw [heq] at hp
  simp only [List.mem_map] at hp
  obtain ⟨q, hq, rfl⟩ := hp
  exact fun ch hch => q.2.hex_lower _ ch hch

/-- Concrete check of Claim C9's theorem at a three-byte file and one
requested algorithm. -/
theorem getChecksumsFromFile_single_pass_witness :
    GetChecksumsFromFile [1, 2, 3] [(str "md5", sumAlg)]
      = [(str "md5", sumAlg)].map
          (fun p => (p.1, p.2.hexdigest (p.2.update p.2.init [1, 2, 3]))) ∧
    (readChunks [1, 2, 3]).flatten = [1, 2, 3] ∧
    (∀ c ∈ readChunks [1, 2, 3], c ≠ [] ∧ c.length ≤ 1048576) ∧
    (∀ c ∈ (readChunks [1, 2, 3]).dropLast, c.length = 1048576) ∧
    (∀ p ∈ GetChecksumsFromFile [1, 2, 3] [(str "md5", sumAlg)],
      ∀ ch ∈ p.2, ch ∈ str "0123456789abcdef") :=
  getChecksumsFromFile_single_pass [1, 2, 3] [(str "md5", sumAlg)]

lemma not_mem_append {c : Char} {a b : Str} (ha : c ∉ a) (hb : c ∉ b) : c ∉ a ++ b := by
  intro h
  rcases List.mem_append.mp h with h | h
  · exact ha h
  · exact hb h

lemma not_mem_cons {c x : Char} {a : Str} (hx : c ≠ x) (ha : c ∉ a) : c ∉ x :: a := by
  intro h
  rcases List.mem_cons.mp h with h | h
  · exact hx h
  · exact ha h

lemma not_mem_pyJoin {c : Char} {sep : Str} (hsep : c ∉ sep) :
    ∀ {ls : List Str}, (∀ l ∈ ls, c ∉ l) → c ∉ pyJoin sep ls := by
  intro ls
  induction ls with
  | nil =>
    intro _ h
    simp [pyJoin] at h
  | cons x xs ih =>
    intro h
    cases xs with
    | nil => exact h x (by simp)
    | cons y ys =>
      rw [pyJoin]
      exact not_mem_append (not_mem_append (h x (by simp)) hsep)
        (ih (fun l hl => h l (by simp [hl])))

lemma digitChar_ne_newline (m : Nat) : Nat.digitChar m ≠ '\n' := by
  rcases Nat.lt_or_ge m 16 with hlt | hge
  · interval_cases m <;> decide
  · have h0 : m ≠ 0 := by omega
    have h1 : m ≠ 1 := by omega
    have h2 : m ≠ 2 := by omega
    have h3 : m ≠ 3 := by omega
    have h4 : m ≠ 4 := by omega
    have h5 : m ≠ 5 := by omega
    have h6 : m ≠ 6 := by omega
    have h7 : m ≠ 7 := by omega
    have h8 : m ≠ 8 := by omega
    have h9 : m ≠ 9 := by omega
    have h10 : m ≠ 10 := by omega
    have h11 : m ≠ 11 := by omega
    have h12 : m ≠ 12 := by omega
    have h13 : m ≠ 13 := by omega
    have h14 : m ≠ 14 := by omega
    have h15 : m ≠ 15 := by omega
    simp [Nat.digitChar, h0, h1, h2, h3, h4, h5, h6, h7, h8, h9, h10, h11, h12,
      h13, h14, h15]

lemma toDigitsCore_chars {b : Nat} :
    ∀ (fuel n : Nat) (ds : List Char), ∀ c ∈ Nat.toDigitsCore b fuel n ds,
      c ∈ ds ∨ ∃ m, c = Nat.digitChar m := by
  intro fuel
  induction fuel with
  | zero =>
    intro n ds c hc
    exact Or.inl hc
  | succ f ih =>
    intro n ds c hc
    rw [Nat.toDigitsCore] at hc
    by_cases hz : n / b = 0
    · rw [if_pos hz] at hc
      rcases List.mem_cons.mp hc with rfl | h
      · exact Or.inr ⟨n % b, rfl⟩
      · exact Or.inl h
    · rw [if_neg hz] at hc
      rcases ih _ _ _ hc with h | h
      · rcases List.mem_cons.mp h with rfl | h2
        · exact Or.inr ⟨n % b, rfl⟩
        · exact Or.inl h2
      · exact Or.inr h

lemma natDecimal_no_newline (n : Nat) : '\n' ∉ natDecimal n := by
  intro h
  rcases toDigitsCore_chars (n + 1) n [] '\n' h with h2 | ⟨m, hm⟩
  · exact absurd h2 (by simp)
  · exact digitChar_ne_newline m hm.symm

lemma newline_not_mem_hexdigest (a : HashAlg) (s : a.State) : '\n' ∉ a.hexdigest s := by
  intro h
  have := a.hex_lower s '\n' h
  revert this
  decide

/-- The per-algorithm digest of the full content computed by the checksum
loop: every requested algorithm's running state is folded over the chunks,
which by `update_append` equals one update with the whole content. -/
lemma getChecksums_map (content : List Nat) (hashFns : List (Str × HashAlg)) :
    GetChecksumsFromFile content hashFns
      = hashFns.map (fun p => (p.1, p.2.hexdigest (p.2.update p.2.init content))) := by
  unfold GetChecksumsFromFile
  rw [foldl_update_states,
    show (readChunks content).flatten = content from
      readChunksFuel_flatten content.length content (le_refl _),
    List.map_map, List.map_map]
  rfl

lemma render_plain {n v : Str} (hn : '\n' ∉ n) (hv : '\n' ∉ v) :
    MakeDebianControlField n (.s v) false = joinLines [n ++ str ": " ++ v] := by
  rw [mdcf_shape, if_neg (by simp), replaceChar_append, replaceChar_append,
    replaceChar_of_not_mem _ hn, replaceChar_of_not_mem _ hv,
    show replaceChar '\n' (str "\n ") (str ": ") = str ": " from by decide,
    joinLines, joinLines, show (str "\n" : Str) = ['\n'] from rfl]

lemma replaceChar_nl_cons {v : Str} (hv : '\n' ∉ v) :
    replaceChar '\n' (str "\n ") (str "\n" ++ v) = '\n' :: ' ' :: v := by
  rw [show (str "\n" : Str) ++ v = '\n' :: v from rfl]
  simp [replaceChar, replaceChar_of_not_mem _ hv]
  rfl

lemma render_nl1 {n v : Str} (hn : '\n' ∉ n) (hv : '\n' ∉ v) :
    MakeDebianControlField n (.s (str "\n" ++ v)) false
      = joinLines [n ++ str ": ", ' ' :: v] := by
  rw [mdcf_shape, if_neg (by simp), replaceChar_append, replaceChar_append,
    replaceChar_of_not_mem _ hn,
    show replaceChar '\n' (str "\n ") (str ": ") = str ": " from by decide,
    replaceChar_nl_cons hv,
    joinLines, joinLines, joinLines, show (str "\n" : Str) = ['\n'] from rfl]
  simp

lemma render_nl2 {n v w : Str} (hn : '\n' ∉ n) (hv : '\n' ∉ v) (hw : '\n' ∉ w) :
    MakeDebianControlField n (.s (str "\n" ++ v ++ (str "\n" ++ w))) false
      = joinLines [n ++ str ": ", ' ' :: v, ' ' :: w] := by
  rw [mdcf_shape, if_neg (by simp)]
  rw [show n ++ str ": " ++ (str "\n" ++ v ++ (str "\n" ++ w))
      = (n ++ str ": ") ++ ((str "\n" ++ v) ++ (str "\n" ++ w)) from by
    simp [List.append_assoc]]
  rw [replaceChar_append, replaceChar_append, replaceChar_append,
    replaceChar_of_not_mem _ hn,
    show replaceChar '\n' (str "\n ") (str ": ") = str ": " from by decide,
    replaceChar_nl_cons hv, replaceChar_nl_cons hw,
    joinLines, joinLines, joinLines, joinLines,
    show (str "\n" : Str) = ['\n'] from rfl]
  simp

/-- Claim C8: the changes document consists of the fifteen fields in
exactly the claimed order — Format, Date, Source, Binary, Architecture,
Version, Distribution, Urgency, Maintainer, Changed-By, Description,
Changes, Files, Checksums-Sha1, Checksums-Sha256 — its physical lines being
`changesLines` plus the empty trailer after the final newline; it contains
exactly one line prefixed `Files: ` and exactly two lines prefixed
`Checksums-`, and their continuation lines (see `changesLines`) share the
same file size and the same deb basename while carrying the md5, sha1 and
sha256 digests of the deb file's complete contents respectively. -/
theorem createChanges_layout (md5A sha1A sha256A : HashAlg) (debPath : Str)
    (debContent : List Nat)
    (ctimeStr architecture shortDescription maintainer package version
      sectionStr priority distribution urgency : Str)
    (hct : '\n' ∉ ctimeStr) (harch : '\n' ∉ architecture)
    (hsd : '\n' ∉ shortDescription) (hm : '\n' ∉ maintainer)
    (hp : '\n' ∉ package) (hv : '\n' ∉ version) (hsec : '\n' ∉ sectionStr)
    (hpri : '\n' ∉ priority) (hd : '\n' ∉ distribution) (hu : '\n' ∉ urgency)
    (hbase : '\n' ∉ pyBasename debPath) :
    CreateChanges md5A sha1A sha256A debPath debContent ctimeStr architecture
        shortDescription maintainer package version sectionStr priority
        distribution urgency
      = joinLines (changesLines
          (md5A.hexdigest (md5A.update md5A.init debContent))
          (sha1A.hexdigest (sha1A.update sha1A.init debContent))
          (sha256A.hexdigest (sha256A.update sha256A.init debContent))
          (natDecimal debContent.length) (pyBasename debPath) ctimeStr
          architecture shortDescription maintainer package version sectionStr
          priority distribution urgency) ∧
    splitChar '\n' (CreateChanges md5A sha1A sha256A debPath debContent
        ctimeStr architecture shortDescription maintainer package version
        sectionStr priority distribution urgency)
      = changesLines
          (md5A.hexdigest (md5A.update md5A.init debContent))
          (sha1A.hexdigest (sha1A.update sha1A.init debContent))
          (sha256A.hexdigest (sha256A.update sha256A.init debContent))
          (natDecimal debContent.length) (pyBasename debPath) ctimeStr
          architecture shortDescription maintainer package version sectionStr
          priority distribution urgency ++ [[]] ∧
    (splitChar '\n' (CreateChanges md5A sha1A sha256A debPath debContent
        ctimeStr architecture shortDescription maintainer package version
        sectionStr priority distribution urgency)).countP
      (fun l => (str "Files: ").isPrefixOf l) = 1 ∧
    (splitChar '\n' (CreateChanges md5A sha1A sha256A debPath debContent
        ctimeStr architecture shortDescription maintainer package version
        sectionStr priority distribution urgency)).countP
      (fun l => (str "Checksums-").isPrefixOf l) = 2 := by
  have hG := getChecksums_map debContent
    [(str "md5", md5A), (str "sha1", sha1A), (str "sha256", sha256A)]
  simp only [List.map_cons, List.map_nil] at hG
  have hDesc : '\n' ∉ package ++ (str " - " ++ shortDescription) :=
    not_mem_append hp (not_mem_append (by decide) hsd)
  have hChg : '\n' ∉ package ++ (str " (" ++ (version ++ (str ") " ++
      (distribution ++ (str "; urgency=" ++ urgency))))) :=
    not_mem_append hp (not_mem_append (by decide) (not_mem_append hv
      (not_mem_append (by decide) (not_mem_append hd
        (not_mem_append (by decide) hu)))))
  have hFj : '\n' ∉ pyJoin (str " ")
      [md5A.hexdigest (md5A.update md5A.init debContent),
        natDecimal debContent.length, sectionStr, priority, pyBasename debPath] := by
    refine not_mem_pyJoin (by decide) ?_
    intro l hl
    simp only [List.mem_cons, List.not_mem_nil, or_false] at hl
    rcases hl with rfl | rfl | rfl | rfl | rfl
    · exact newline_not_mem_hexdigest md5A _
    · exact natDecimal_no_newline _
    · exact hsec
    · exact hpri
    · exact hbase
  have hS1 : '\n' ∉ pyJoin (str " ")
      [sha1A.hexdigest (sha1A.update sha1A.init debContent),
        natDecimal debContent.length, pyBasename debPath] := by
    refine not_mem_pyJoin (by decide) ?_
    intro l hl
    simp only [List.mem_cons, List.not_mem_nil, or_false] at hl
    rcases hl with rfl | rfl | rfl
    · exact newline_not_mem_hexdigest sha1A _
    · exact natDecimal_no_newline _
    · exact hbase
  have hS2 : '\n' ∉ pyJoin (str " ")
      [sha256A.hexdigest (sha256A.update sha256A.init debContent),
        natDecimal debContent.length, pyBasename debPath] := by
    refine not_mem_pyJoin (by decide) ?_
    intro l hl
    simp only [List.mem_cons, List.not_mem_nil, or_false] at hl
    rcases hl with rfl | rfl | rfl
    · exact newline_not_mem_hexdigest sha256A _
    · exact natDecimal_no_newline _
    · exact hbase
  have h1 : CreateChanges md5A sha1A sha256A debPath debContent ctimeStr
      architecture shortDescription maintainer package version sectionStr
      priority distribution urgency
      = joinLines (changesLines
          (md5A.hexdigest (md5A.update md5A.init debContent))
          (sha1A.hexdigest (sha1A.update sha1A.init debContent))
          (sha256A.hexdigest (sha256A.update sha256A.init debContent))
          (natDecimal debContent.length) (pyBasename debPath) ctimeStr
          architecture shortDescription maintainer package version sectionStr
          priority distribution urgency) := by
    unfold CreateChanges
    rw [hG]
    show (List.map (fun x => MakeDebianControlField x.1 (FieldValue.s x.2) false)
      [(str "Format", str "1.8"),
        (str "Date", ctimeStr),
        (str "Source", package),
        (str "Binary", package),
        (str "Architecture", architecture),
        (str "Version", version),
        (str "Distribution", distribution),
        (str "Urgency", urgency),
        (str "Maintainer", maintainer),
        (str "Changed-By", maintainer),
        (str "Description", str "\n" ++ package ++ str " - " ++ shortDescription),
        (str "Changes", str "\n" ++ package ++ str " (" ++ version ++ str ") " ++
          distribution ++ str "; urgency=" ++ urgency ++
          str "\nChanges are tracked in revision control."),
        (str "Files", str "\n" ++ pyJoin (str " ")
          [md5A.hexdigest (md5A.update md5A.init debContent),
            natDecimal debContent.length, sectionStr, priority, pyBasename debPath]),
        (str "Checksums-Sha1", str "\n" ++ pyJoin (str " ")
          [sha1A.hexdigest (sha1A.update sha1A.init debContent),
            natDecimal debContent.length, pyBasename debPath]),
        (str "Checksums-Sha256", str "\n" ++ pyJoin (str " ")
          [sha256A.hexdigest (sha256A.update sha256A.init debContent),
            natDecimal debContent.length, pyBasename debPath])]).flatten = _
    simp only [List.map_cons, List.map_nil, List.flatten_cons, List.flatten_nil]
    rw [@render_plain (str "Format") (str "1.8") (by decide) (by decide),
      @render_plain (str "Date") ctimeStr (by decide) hct,
      @render_plain (str "Source") package (by decide) hp,
      @render_plain (str "Binary") package (by decide) hp,
      @render_plain (str "Architecture") architecture (by decide) harch,
      @render_plain (str "Version") version (by decide) hv,
      @render_plain (str "Distribution") distribution (by decide) hd,
      @render_plain (str "Urgency") urgency (by decide) hu,
      @render_plain (str "Maintainer") maintainer (by decide) hm,
      @render_plain (str "Changed-By") maintainer (by decide) hm]
    rw [show (str "\n" ++ package ++ str " - " ++ shortDescription : Str)
        = str "\n" ++ (package ++ (str " - " ++ shortDescription)) from by
      simp [List.append_assoc]]
    rw [@render_nl1 (str "Description") (package ++ (str " - " ++ shortDescription))
      (by decide) hDesc]
    rw [show (str "\n" ++ package ++ str " (" ++ version ++ str ") " ++ distribution
          ++ str "; urgency=" ++ urgency
          ++ str "\nChanges are tracked in revision control." : Str)
        = str "\n" ++ (package ++ (str " (" ++ (version ++ (str ") " ++
            (distribution ++ (str "; urgency=" ++ urgency))))))
          ++ (str "\n" ++ str "Changes are tracked in revision control.") from by
      simp only [List.append_assoc]
      rfl]
    rw [@render_nl2 (str "Changes")
      (package ++ (str " (" ++ (version ++ (str ") " ++
        (distribution ++ (str "; urgency=" ++ urgency))))))
      (str "Changes are tracked in revision control.") (by decide) hChg (by decide)]
    rw [@render_nl1 (str "Files") (pyJoin (str " ")
      [md5A.hexdigest (md5A.update md5A.init debContent),
        natDecimal debContent.length, sectionStr, priority, pyBasename debPath])
      (by decide) hFj]
    rw [@render_nl1 (str "Checksums-Sha1") (pyJoin (str " ")
      [sha1A.hexdigest (sha1A.update sha1A.init debContent),
        natDecimal debContent.length, pyBasename debPath]) (by decide) hS1]
    rw [@render_nl1 (str "Checksums-Sha256") (pyJoin (str " ")
      [sha256A.hexdigest (sha256A.update sha256A.init debContent),
        natDecimal debContent.length, pyBasename debPath]) (by decide) hS2]
    simp only [List.append_nil, ← joinLines_append]
    rfl
  have h2 : splitChar '\n' (CreateChanges md5A sha1A sha256A debPath debContent
      ctimeStr architecture shortDescription maintainer package version
      sectionStr priority distribution urgency)
      = changesLines
          (md5A.hexdigest (md5A.update md5A.init debContent))
          (sha1A.hexdigest (sha1A.update sha1A.init debContent))
          (sha256A.hexdigest (sha256A.update sha256A.init debContent))
          (natDecimal debContent.length) (pyBasename debPath) ctimeStr
          architecture shortDescription maintainer package version sectionStr
          priority distribution urgency ++ [[]] := by
    rw [h1]
    refine splitChar_joinLines ?_
    intro l hl
    simp only [changesLines, List.mem_cons, List.not_mem_nil, or_false] at hl
    rcases hl with rfl | rfl | rfl | rfl | rfl | rfl | rfl | rfl | rfl | rfl | rfl |
      rfl | rfl | rfl | rfl | rfl | rfl | rfl | rfl | rfl | rfl
    · decide
    · exact not_mem_append (by decide) hct
    · exact not_mem_append (by decide) hp
    · exact not_mem_append (by decide) hp
    · exact not_mem_append (by decide) harch
    · exact not_mem_append (by decide) hv
    · exact not_mem_append (by decide) hd
    · exact not_mem_append (by decide) hu
    · exact not_mem_append (by decide) hm
    · exact not_mem_append (by decide) hm
    · decide
    · exact not_mem_cons (by decide) hDesc
    · decide
    · exact not_mem_cons (by decide) hChg
    · decide
    · decide
    · exact not_mem_cons (by decide) hFj
    · decide
    · exact not_mem_cons (by decide) hS1
    · decide
    · exact not_mem_cons (by decide) hS2
  refine ⟨h1, h2, ?_, ?_⟩
  · rw [h2]
    rfl
  · rw [h2]
    rfl

/-- Concrete check of Claim C8's theorem at explicit identity data and a
two-byte deb file, with the degenerate algorithm standing in for each
hashlib constructor. -/
theorem createChanges_layout_witness :
    (('\n' ∉ str "Thu Jan  1 00:00:00 1970") ∧ ('\n' ∉ str "all") ∧
      ('\n' ∉ str "demo") ∧ ('\n' ∉ str "m@example.com") ∧ ('\n' ∉ str "foo") ∧
      ('\n' ∉ str "1.0") ∧ ('\n' ∉ str "contrib/devel") ∧
      ('\n' ∉ str "optional") ∧ ('\n' ∉ str "unstable") ∧
      ('\n' ∉ str "medium") ∧ ('\n' ∉ pyBasename (str "out/foo.deb"))) ∧
    (splitChar '\n' (CreateChanges sumAlg sumAlg sumAlg (str "out/foo.deb") [9, 9]
        (str "Thu Jan  1 00:00:00 1970") (str "all") (str "demo")
        (str "m@example.com") (str "foo") (str "1.0") (str "contrib/devel")
        (str "optional") (str "unstable") (str "medium"))).countP
      (fun l => (str "Files: ").isPrefixOf l) = 1 ∧
    (splitChar '\n' (CreateChanges sumAlg sumAlg sumAlg (str "out/foo.deb") [9, 9]
        (str "Thu Jan  1 00:00:00 1970") (str "all") (str "demo")
        (str "m@example.com") (str "foo") (str "1.0") (str "contrib/devel")
        (str "optional") (str "unstable") (str "medium"))).countP
      (fun l => (str "Checksums-").isPrefixOf l) = 2 :=
  ⟨by decide,
    (createChanges_layout sumAlg sumAlg sumAlg (str "out/foo.deb") [9, 9]
      (str "Thu Jan  1 00:00:00 1970") (str "all") (str "demo")
      (str "m@example.com") (str "foo") (str "1.0") (str "contrib/devel")
      (str "optional") (str "unstable") (str "medium") (by decide) (by decide)
      (by decide) (by decide) (by decide) (by decide) (by decide) (by decide)
      (by decide) (by decide) (by decide)).2.2.1,
    (createChanges_layout sumAlg sumAlg sumAlg (str "out/foo.deb") [9, 9]
      (str "Thu Jan  1 00:00:00 1970") (str "all") (str "demo")
      (str "m@example.com") (str "foo") (str "1.0") (str "contrib/devel")
      (str "optional") (str "unstable") (str "medium") (by decide) (by decide)
      (by decide) (by decide) (by decide) (by decide) (by decide) (by decide)
      (by decide) (by decide) (by decide)).2.2.2⟩

end MakeDeb
